import Mathlib

/-!
Verification of the port-tracker spreadsheet section extractor
(`src/scraper/endpoints/monthly.py`, class `TODExcelWorkbook`) against its
natural-language specification.

The Python code is shallowly embedded: a spreadsheet sheet becomes a `Grid`
(rectangular list of loosely-typed `Cell` values), pandas DataFrame slicing
and cleaning become pure list functions, Python exceptions become `Except`,
and the Python `dict` used by `_find_section_ranges` becomes an association
list with insert-or-overwrite semantics.
-/

set_option maxRecDepth 10000

namespace PortTracker

/-- A calendar date-time, as produced by the date parser (`pd.to_datetime`
with format `"%Y-%m-%d %H:%M:%S"`). -/
structure DateTime where
  year : Nat
  month : Nat
  day : Nat
  hour : Nat
  minute : Nat
  second : Nat
deriving DecidableEq, Repr

/-- Number of days of a month, with leap years (Gregorian rules), as
enforced by the datetime library underlying `pd.to_datetime`. -/
def daysInMonth (y m : Nat) : Nat :=
  if m = 2 then
    if y % 4 = 0 ∧ (y % 100 ≠ 0 ∨ y % 400 = 0) then 29 else 28
  else if m = 4 ∨ m = 6 ∨ m = 9 ∨ m = 11 then 30
  else 31

/-- Validity of a date-time value: field ranges the datetime library accepts
(4-digit years, real calendar days). -/
def validDate (d : DateTime) : Bool :=
  1 ≤ d.year && d.year ≤ 9999 &&
  1 ≤ d.month && d.month ≤ 12 &&
  1 ≤ d.day && d.day ≤ daysInMonth d.year d.month &&
  d.hour ≤ 23 && d.minute ≤ 59 && d.second ≤ 59

/-- A spreadsheet cell value as delivered by the spreadsheet reader:
missing (`NaN`), a number, a text, or a date-time. -/
inductive Cell where
  | empty
  | num (n : Int)
  | text (s : String)
  | date (d : DateTime)
deriving DecidableEq, Repr

/-- One sheet of the workbook: a rectangular grid of cells, `ncols` wide. -/
structure Grid where
  ncols : Nat
  rows : List (List Cell)
deriving DecidableEq, Repr

/-- Constant `ExcelConfig.HEADER_ROW` from the source. -/
def HEADER_ROW : Nat := 2

/-- Constant `ExcelConfig.DATA_START_ROW` from the source. -/
def DATA_START_ROW : Nat := 3

/-- Constant `ExcelConfig.MAIN_SHEET` from the source. -/
def MAIN_SHEET : String := "Port of Newcastle"

/-- Constant `ExcelConfig.DATE_COLUMN` from the source. -/
def DATE_COLUMN : String := "Month"

/-! ### Date-time text: fixed-format parsing and ISO rendering -/

/-- The decimal digit character for `d` (meaningful for `d < 10`). -/
def digitChar (d : Nat) : Char := Char.ofNat (48 + d)

/-- The value of a decimal digit character, `none` on a non-digit. -/
def digitVal (c : Char) : Option Nat :=
  if 48 ≤ c.toNat ∧ c.toNat ≤ 57 then some (c.toNat - 48) else none

/-- Two-digit zero-padded rendering of `n` (`%02d`). -/
def pad2 (n : Nat) : List Char := [digitChar (n / 10 % 10), digitChar (n % 10)]

/-- Four-digit zero-padded rendering of `n` (`%04d`). -/
def pad4 (n : Nat) : List Char :=
  [digitChar (n / 1000 % 10), digitChar (n / 100 % 10),
   digitChar (n / 10 % 10), digitChar (n % 10)]

/-- Read a two-digit decimal number. -/
def read2 (a b : Char) : Option Nat :=
  match digitVal a, digitVal b with
  | some x, some y => some (10 * x + y)
  | _, _ => none

/-- Read a four-digit decimal number. -/
def read4 (a b c d : Char) : Option Nat :=
  match digitVal a, digitVal b, digitVal c, digitVal d with
  | some x, some y, some z, some w => some (1000 * x + 100 * y + 10 * z + w)
  | _, _, _, _ => none

/-- Render a date-time as `YYYY-MM-DD<sep>HH:MM:SS`. -/
def renderDateTime (sep : Char) (d : DateTime) : List Char :=
  pad4 d.year ++ '-' :: pad2 d.month ++ '-' :: pad2 d.day ++
    sep :: pad2 d.hour ++ ':' :: pad2 d.minute ++ ':' :: pad2 d.second

/-- Parse `YYYY-MM-DD<sep>HH:MM:SS` into a validated date-time. -/
def parseDateTimeCore (sep : Char) (l : List Char) : Option DateTime :=
  match l with
  | [y1, y2, y3, y4, c1, m1, m2, c2, d1, d2, cs, h1, h2, c3, n1, n2, c4, s1, s2] =>
    if c1 = '-' ∧ c2 = '-' ∧ cs = sep ∧ c3 = ':' ∧ c4 = ':' then
      match read4 y1 y2 y3 y4, read2 m1 m2, read2 d1 d2,
            read2 h1 h2, read2 n1 n2, read2 s1 s2 with
      | some y, some mo, some da, some h, some mi, some se =>
        let dt : DateTime := ⟨y, mo, da, h, mi, se⟩
        if validDate dt then some dt else none
      | _, _, _, _, _, _ => none
    else none
  | _ => none

/-- Embeds `pd.to_datetime(_, format="%Y-%m-%d %H:%M:%S")` on one text value:
the fixed format with a space separator, rejecting invalid calendar dates. -/
def parseDateStr (s : String) : Option DateTime :=
  parseDateTimeCore ' ' s.data

/-- Python `datetime.isoformat()` for a whole-second timestamp:
`YYYY-MM-DDTHH:MM:SS`. -/
def isoformat (d : DateTime) : String :=
  ⟨renderDateTime 'T' d⟩

/-- Parse an ISO-8601 `YYYY-MM-DDTHH:MM:SS` text back into a date-time. -/
def parseIso (s : String) : Option DateTime :=
  parseDateTimeCore 'T' s.data

/-! ### Errors -/

/-- The error taxonomy of the extractor: structural validation failures,
per-cell parse failures, and total extraction failure. -/
inductive ScrapeError where
  | structureError (msg : String)
  | parseError (msg : String)
  | noSectionsParsed
deriving DecidableEq, Repr

/-- Returns `true` on a successful `Except` result. -/
def exIsOk {ε α : Type} : Except ε α → Bool
  | .ok _ => true
  | .error _ => false

/-! ### Section discovery (`_find_section_ranges`) -/

/-- A half-open column range `[start, stop)`, Python's `range(start, stop)`. -/
structure ColRange where
  start : Nat
  stop : Nat
deriving DecidableEq, Repr

instance : Inhabited ColRange := ⟨⟨0, 0⟩⟩

/-- The designated header row of the main sheet
(`main_sheet.iloc[HEADER_ROW]`). -/
def headerRow (g : Grid) : List Cell :=
  g.rows.getD HEADER_ROW []

/-- Embeds `main_sheet.iloc[HEADER_ROW].dropna()`: the non-empty header cells,
paired with their column positions (the surviving pandas index). -/
def nonEmptyHeaders (g : Grid) : List (Nat × Cell) :=
  (headerRow g).enum.filter (fun p => p.2 ≠ Cell.empty)

/-- Pair each header cell with the range from its column up to the next
header's column, or up to `ncols` for the last header — the loop body of
`_find_section_ranges`. -/
def pairRanges (hs : List (Nat × Cell)) (ncols : Nat) : List (Cell × ColRange)
  :=
  match hs with
  | [] => []
  | [(c, v)] => [(v, ⟨c, ncols⟩)]
  | (c, v) :: (c', v') :: rest => (v, ⟨c, c'⟩) :: pairRanges ((c', v') :: rest) ncols

/-- Python `dict` assignment `d[k] = v`: overwrite the value in place when
the key exists, append otherwise. -/
def dictInsert {β : Type} (k : Cell) (v : β) :
    List (Cell × β) → List (Cell × β)
  | [] => [(k, v)]
  | (k', v') :: rest =>
    if k' = k then (k', v) :: rest else (k', v') :: dictInsert k v rest

/-- Embeds `_find_section_ranges`: a mapping from section name (header cell value)
to its column range, built by successive `dict` assignments. -/
def findSectionRanges (g : Grid) : List (Cell × ColRange) :=
  (pairRanges (nonEmptyHeaders g) g.ncols).foldl
    (fun d p => dictInsert p.1 p.2 d) []

/-- Python `d[k]`: the value bound to the first (only) entry with key `k`. -/
def dictFind {β : Type} (k : Cell) : List (Cell × β) → Option β
  | [] => none
  | (k', v) :: rest => if k' = k then some v else dictFind k rest

/-- The value of the LAST entry with key `k` in an association list. -/
def lastFind {β : Type} (k : Cell) (l : List (Cell × β)) : Option β :=
  dictFind k l.reverse

/-! ### Section extraction (`_extract_section_data`) -/

/-- Embeds `np.r_[0, col_range.start : col_range.stop]`: column 0 prepended (by
concatenation) to the range's columns. -/
def colSelection (r : ColRange) : List Nat :=
  0 :: List.range' r.start (r.stop - r.start)

/-- A sliced data frame: rows carrying their original row labels. With
`header=None` the columns are positional, so only rows are kept. -/
structure Frame where
  rows : List (Nat × List Cell)
deriving DecidableEq, Repr

/-- Embeds `main_sheet.iloc[DATA_START_ROW:, cols]`: keep the rows from
`DATA_START_ROW` on (labelled by their original index) and project each
onto the selected columns, in selection order. -/
def selectData (g : Grid) (cols : List Nat) : Frame :=
  ⟨(g.rows.drop DATA_START_ROW).enum.map
    (fun p => (DATA_START_ROW + p.1, cols.map (fun c => p.2.getD c Cell.empty)))⟩

/-! ### Section cleaning (`_clean_section_dataframe`) -/

/-- A cleaned section frame: promoted column labels plus labelled rows. -/
structure CleanFrame where
  columns : List Cell
  rows : List (Nat × List Cell)
deriving DecidableEq, Repr

/-- Drop the cells sitting under a `"Year"` column label
(`df.drop(columns=["Year"])`, row part). -/
def dropYearRow (cols row : List Cell) : List Cell :=
  (cols.zip row).filterMap
    (fun p => if p.1 = Cell.text "Year" then none else some p.2)

/-- Drop the `"Year"` column labels (`df.drop(columns=["Year"])`, label part). -/
def dropYearCols (cols : List Cell) : List Cell :=
  cols.filter (fun c => c ≠ Cell.text "Year")

/-- Embeds `[col if col != DATE_COLUMN else "Date" for col in df.columns]`. -/
def renameMonth (cols : List Cell) : List Cell :=
  cols.map (fun c => if c = Cell.text DATE_COLUMN then Cell.text "Date" else c)

/-- Embeds `pd.to_datetime` on one cell of the date column: a text is parsed with
the fixed format, an existing date-time passes through, a missing value
stays missing (`NaT`), anything else fails. -/
def parseCellDate (x : Cell) : Except ScrapeError Cell :=
  match x with
  | Cell.text s =>
    match parseDateStr s with
    | some d => .ok (Cell.date d)
    | none => .error (.parseError s)
  | Cell.date d => .ok (Cell.date d)
  | Cell.empty => .ok Cell.empty
  | Cell.num _ => .error (.parseError "non-text cell")

/-- Traverse a list with a fallible function, failing on the first failure
(the `Except` effect of a pandas column-wise conversion). -/
def mapMExcept {α β : Type} (f : α → Except ScrapeError β) :
    List α → Except ScrapeError (List β)
  | [] => .ok []
  | a :: as =>
    match f a with
    | .error e => .error e
    | .ok b =>
      match mapMExcept f as with
      | .error e => .error e
      | .ok bs => .ok (b :: bs)

/-- Embeds `df["Date"] = pd.to_datetime(df["Date"], ...)` on one row, for
the case where exactly one column is labelled `"Date"` (so `df["Date"]` is
a Series): parse the cell sitting under the `"Date"` label, keep the rest.
`cleanSection` only takes this path when the `"Date"` label is unique. -/
def parseDateRow (cols row : List Cell) : Except ScrapeError (List Cell) :=
  mapMExcept
    (fun p => if p.1 = Cell.text "Date" then parseCellDate p.2 else .ok p.2)
    (cols.zip row)

/-- Stable insertion into a list sorted by row label. -/
def insertByIdx (p : Nat × List Cell) :
    List (Nat × List Cell) → List (Nat × List Cell)
  | [] => [p]
  | q :: rest => if p.1 ≤ q.1 then p :: q :: rest else q :: insertByIdx p rest

/-- Embeds `df.sort_index()`: stable sort of the rows by original row label. -/
def sortIndex : List (Nat × List Cell) → List (Nat × List Cell)
  | [] => []
  | p :: rest => insertByIdx p (sortIndex rest)

/-- The column-label pipeline of `_clean_section_dataframe`: drop `"Year"`
if present, then rename `DATE_COLUMN` to `"Date"` if present. -/
def cleanCols (hdr : List Cell) : List Cell :=
  let cols1 := if Cell.text "Year" ∈ hdr then dropYearCols hdr else hdr
  if Cell.text DATE_COLUMN ∈ cols1 then renameMonth cols1 else cols1

/-- The row transformation matching the `"Year"` drop of the labels. -/
def cleanRow (hdr row : List Cell) : List Cell :=
  if Cell.text "Year" ∈ hdr then dropYearRow hdr row else row

/-- Embeds `_clean_section_dataframe`: promote the first row to column labels,
drop it, drop a `"Year"` column, rename `DATE_COLUMN` to `"Date"` and parse
that column's values, and sort rows by original label. Fails when the frame
has no rows to promote (`IndexError`), when the renamed labels contain
`"Date"` more than once — `df["Date"]` is then a DataFrame and
`pd.to_datetime` on a DataFrame raises `ValueError` unconditionally,
whatever the cell values — or when a date cell fails to parse. -/
def cleanSection (f : Frame) : Except ScrapeError CleanFrame :=
  match f.rows with
  | [] => .error (.parseError "no header row to promote")
  | (_, hdr) :: rest =>
    let cols1 := if Cell.text "Year" ∈ hdr then dropYearCols hdr else hdr
    let rest1 := rest.map (fun p => (p.1, cleanRow hdr p.2))
    if Cell.text DATE_COLUMN ∈ cols1 then
      let cols2 := renameMonth cols1
      if cols2.count (Cell.text "Date") = 1 then
        match mapMExcept (fun p => (parseDateRow cols2 p.2).map ((p.1, ·)))
            rest1 with
        | .error e => .error e
        | .ok rows2 => .ok ⟨cols2, sortIndex rows2⟩
      else
        .error (.parseError "to_datetime on duplicate Date columns")
    else
      .ok ⟨cols1, sortIndex rest1⟩

/-- Embeds `_extract_section_data`: select the date column plus the section's
columns and the data rows, then clean. -/
def extractSectionData (g : Grid) (r : ColRange) :
    Except ScrapeError CleanFrame :=
  cleanSection (selectData g (colSelection r))

/-! ### Whole-workbook parsing (`_parse_all_sections`, validation) -/

/-- Embeds `_parse_all_sections`: extract every discovered section, skipping the
ones that fail; fail with `noSectionsParsed` when none succeeds. -/
def parseAllSections (g : Grid) :
    Except ScrapeError (List (Cell × CleanFrame)) :=
  let out := (findSectionRanges g).foldl
    (fun acc p =>
      match extractSectionData g p.2 with
      | .ok t => acc ++ [(p.1, t)]
      | .error _ => acc) []
  if out.isEmpty then .error .noSectionsParsed else .ok out

/-- The loaded workbook: a mapping from sheet name to grid, as returned by
the spreadsheet reader. -/
def Spreadsheet : Type := List (String × Grid)

/-- Number of rows of the main sheet (`main_sheet.shape[0]`). -/
def Grid.nrows (g : Grid) : Nat := g.rows.length

/-- Embeds `_validate_excel_structure`: the main sheet must exist, have more rows
than `DATA_START_ROW` (and than `HEADER_ROW`), and have at least one
non-empty header cell. -/
def validateExcelStructure (ss : Spreadsheet) : Except ScrapeError Unit :=
  match List.lookup MAIN_SHEET ss with
  | none => .error (.structureError ("Missing required sheet: " ++ MAIN_SHEET))
  | some m =>
    if m.nrows ≤ DATA_START_ROW then
      .error (.structureError "Sheet has insufficient rows")
    else if m.nrows ≤ HEADER_ROW then
      .error (.structureError "Missing header row")
    else if (nonEmptyHeaders m).length = 0 then
      .error (.structureError "No section headers found")
    else .ok ()

/-- Embeds `TODExcelWorkbook.__init__` after loading: validate the structure, then
parse all sections of the main sheet. -/
def buildWorkbook (ss : Spreadsheet) :
    Except ScrapeError (List (Cell × CleanFrame)) :=
  match validateExcelStructure ss with
  | .error e => .error e
  | .ok _ =>
    match List.lookup MAIN_SHEET ss with
    | none => .error (.structureError ("Missing required sheet: " ++ MAIN_SHEET))
    | some m => parseAllSections m

/-- Embeds `to_dict(orient="records")`: one key-value record per row, keyed by the
column labels. -/
def toRecords (t : CleanFrame) : List (List (Cell × Cell)) :=
  t.rows.map (fun p => t.columns.zip p.2)

/-- The cells of a row sitting under a `"Date"` column label. -/
def dateCells (cols row : List Cell) : List Cell :=
  (cols.zip row).filterMap
    (fun p => if p.1 = Cell.text "Date" then some p.2 else none)

/-! ### JSON sink (`save_json`) -/

/-- A JSON value, the image of `json.dump`. -/
inductive JValue where
  | jnull
  | jnum (n : Int)
  | jstr (s : String)
  | jarr (xs : List JValue)
  | jobj (m : List (String × JValue))

/-- One record of a Section Table as handed to the JSON sink: string keys
(JSON object keys) mapped to cell values. -/
abbrev JRecord : Type := List (String × Cell)

/-- Embeds `lambda x: x.isoformat() if hasattr(x, "isoformat") else x`, then JSON
encoding: a date becomes its ISO-8601 text, other scalars pass through. -/
def encodeCell (x : Cell) : JValue :=
  match x with
  | Cell.date d => .jstr (isoformat d)
  | Cell.num n => .jnum n
  | Cell.text s => .jstr s
  | Cell.empty => .jnull

/-- Encode one record as a JSON object. -/
def encodeRecord (r : JRecord) : JValue :=
  .jobj (r.map (fun p => (p.1, encodeCell p.2)))

/-- The file content written by `save_json` for one section:
`{ "<SectionName>": [ {key: value, ...}, ... ] }`. -/
def encodeSection (name : String) (recs : List JRecord) : JValue :=
  .jobj [(name, .jarr (recs.map encodeRecord))]

/-- Decode one JSON scalar back into a cell, recovering a date from an
ISO-8601 text. -/
def decodeCell (j : JValue) : Option Cell :=
  match j with
  | .jstr s =>
    match parseIso s with
    | some d => some (Cell.date d)
    | none => some (Cell.text s)
  | .jnum n => some (Cell.num n)
  | .jnull => some Cell.empty
  | _ => none

/-- Decode one JSON object back into a record. -/
def decodeRecord (j : JValue) : Option JRecord :=
  match j with
  | .jobj m => m.mapM (fun p => (decodeCell p.2).map ((p.1, ·)))
  | _ => none

/-- Parse the JSON sink file content back: the section name and its
ordered record list. -/
def decodeSection (j : JValue) : Option (String × List JRecord) :=
  match j with
  | .jobj [(name, .jarr rs)] => (rs.mapM decodeRecord).map ((name, ·))
  | _ => none

instance : Inhabited Cell := ⟨Cell.empty⟩

/-! ### Association-list dictionary lemmas -/

theorem dictInsert_of_not_mem {β : Type} (k : Cell) (v : β)
    (d : List (Cell × β)) (h : k ∉ d.map Prod.fst) :
    dictInsert k v d = d ++ [(k, v)] := by
  induction d with
  | nil => rfl
  | cons q rest ih =>
    obtain ⟨k', v'⟩ := q
    simp only [List.map_cons, List.mem_cons] at h
    push_neg at h
    simp [dictInsert, Ne.symm h.1, ih h.2]

theorem dictInsert_keys_of_mem {β : Type} (k : Cell) (v : β)
    (d : List (Cell × β)) (h : k ∈ d.map Prod.fst) :
    (dictInsert k v d).map Prod.fst = d.map Prod.fst := by
  induction d with
  | nil => simp at h
  | cons q rest ih =>
    obtain ⟨k', v'⟩ := q
    by_cases hk : k' = k
    · simp [dictInsert, hk]
    · simp only [List.map_cons, List.mem_cons] at h
      rcases h with h | h

      · exact absurd h.symm hk
      · simp [dictInsert, hk, ih h]

theorem dictInsert_keys_toFinset {β : Type} (k : Cell) (v : β)
    (d : List (Cell × β)) :
    ((dictInsert k v d).map Prod.fst).toFinset =
      insert k (d.map Prod.fst).toFinset := by
  induction d with
  | nil => simp [dictInsert]
  | cons q rest ih =>
    obtain ⟨k', v'⟩ := q
    by_cases hk : k' = k
    · subst hk
      simp [dictInsert]
    · simp [dictInsert, hk, ih, Finset.Insert.comm]

theorem dictInsert_keys_nodup {β : Type} (k : Cell) (v : β)
    (d : List (Cell × β)) (h : (d.map Prod.fst).Nodup) :
    ((dictInsert k v d).map Prod.fst).Nodup := by
  by_cases hk : k ∈ d.map Prod.fst
  · rw [dictInsert_keys_of_mem k v d hk]; exact h
  · rw [dictInsert_of_not_mem k v d hk]
    simp only [List.map_append, List.map_cons, List.map_nil]
    exact List.Nodup.append h (List.nodup_singleton k)
      (fun a ha hak => hk ((List.mem_singleton.mp hak) ▸ ha))

theorem dictFind_dictInsert {β : Type} (k k0 : Cell) (v0 : β)
    (d : List (Cell × β)) :
    dictFind k (dictInsert k0 v0 d) =
      if k0 = k then some v0 else dictFind k d := by
  induction d with
  | nil => simp [dictInsert, dictFind]
  | cons q rest ih =>
    obtain ⟨k', v'⟩ := q
    by_cases h0 : k' = k0
    · subst h0
      by_cases hk : k' = k
      · subst hk; simp [dictInsert, dictFind]
      · simp [dictInsert, dictFind, hk]
    · by_cases hk : k' = k
      · subst hk
        have : k0 ≠ k' := fun h => h0 h.symm
        simp [dictInsert, dictFind, h0, this]
      · simp [dictInsert, dictFind, h0, hk, ih]

theorem dictFind_append {β : Type} (k : Cell) (l1 l2 : List (Cell × β)) :
    dictFind k (l1 ++ l2) = (dictFind k l1).or (dictFind k l2) := by
  induction l1 with
  | nil => simp [dictFind]
  | cons q rest ih =>
    obtain ⟨k', v'⟩ := q
    by_cases hk : k' = k
    · simp [dictFind, hk]
    · simp [dictFind, hk, ih]

theorem foldl_dictInsert_fresh {β : Type} (l acc : List (Cell × β))
    (hn : (l.map Prod.fst).Nodup)
    (hf : ∀ k ∈ l.map Prod.fst, k ∉ acc.map Prod.fst) :
    l.foldl (fun d p => dictInsert p.1 p.2 d) acc = acc ++ l := by
  induction l generalizing acc with
  | nil => simp
  | cons p rest ih =>
    have hcons : p.1 ∉ rest.map Prod.fst ∧ (rest.map Prod.fst).Nodup :=
      List.nodup_cons.mp (by simpa using hn)
    simp only [List.foldl_cons]
    rw [dictInsert_of_not_mem _ _ _ (hf p.1 (by simp))]
    have hf' : ∀ k ∈ rest.map Prod.fst,
        k ∉ (acc ++ [(p.1, p.2)]).map Prod.fst := by
      intro k hk
      simp only [List.map_append, List.mem_append, List.map_cons,
        List.map_nil, List.mem_singleton]
      push_neg
      exact ⟨hf k (by simp [hk]), fun hkp => hcons.1 (hkp ▸ hk)⟩
    rw [ih (acc ++ [(p.1, p.2)]) hcons.2 hf', List.append_assoc]
    simp

theorem foldl_dictInsert_keys_nodup {β : Type} (l acc : List (Cell × β))
    (h : (acc.map Prod.fst).Nodup) :
    ((l.foldl (fun d p => dictInsert p.1 p.2 d) acc).map Prod.fst).Nodup := by
  induction l generalizing acc with
  | nil => simpa
  | cons p rest ih =>
    simp only [List.foldl_cons]
    exact ih _ (dictInsert_keys_nodup p.1 p.2 acc h)

theorem foldl_dictInsert_keys_toFinset {β : Type} (l acc : List (Cell × β)) :
    ((l.foldl (fun d p => dictInsert p.1 p.2 d) acc).map Prod.fst).toFinset =
      (acc.map Prod.fst).toFinset ∪ (l.map Prod.fst).toFinset := by
  induction l generalizing acc with
  | nil => simp
  | cons p rest ih =>
    simp only [List.foldl_cons, ih, dictInsert_keys_toFinset]
    ext x
    simp only [Finset.mem_union, Finset.mem_insert, List.map_cons,
      List.toFinset_cons]
    tauto

theorem foldl_dictInsert_find {β : Type} (l acc : List (Cell × β)) (k : Cell) :
    dictFind k (l.foldl (fun d p => dictInsert p.1 p.2 d) acc) =
      (lastFind k l).or (dictFind k acc) := by
  induction l generalizing acc with
  | nil => simp [lastFind, dictFind]
  | cons p rest ih =>
    simp only [List.foldl_cons]
    rw [ih, lastFind, lastFind, List.reverse_cons, dictFind_append,
      dictFind_dictInsert, Option.or_assoc]
    congr 1
    by_cases hk : p.1 = k
    · simp [dictFind, hk]
    · simp [dictFind, hk]

/-! ### `pairRanges` lemmas -/

theorem pairRanges_length (hs : List (Nat × Cell)) (n : Nat) :
    (pairRanges hs n).length = hs.length := by
  induction hs with
  | nil => rfl
  | cons p rest ih =>
    cases rest with
    | nil => rfl
    | cons q rest' => simpa [pairRanges] using ih

theorem pairRanges_names (hs : List (Nat × Cell)) (n : Nat) :
    (pairRanges hs n).map Prod.fst = hs.map Prod.snd := by
  induction hs with
  | nil => rfl
  | cons p rest ih =>
    cases rest with
    | nil => rfl
    | cons q rest' => simpa [pairRanges] using ih

theorem pairRanges_starts (hs : List (Nat × Cell)) (n : Nat) :
    (pairRanges hs n).map (fun p => p.2.start) = hs.map Prod.fst := by
  induction hs with
  | nil => rfl
  | cons p rest ih =>
    cases rest with
    | nil => rfl
    | cons q rest' => simpa [pairRanges] using ih

theorem pairRanges_head_start (hs : List (Nat × Cell)) (n : Nat)
    (h : hs ≠ []) :
    ((pairRanges hs n).headD default).2.start = (hs.headD default).1 := by
  cases hs with
  | nil => exact absurd rfl h
  | cons p rest =>
    cases rest with
    | nil => rfl
    | cons q rest' => rfl

theorem pairRanges_chain (hs : List (Nat × Cell)) (n : Nat) :
    List.Chain' (fun a b => a.2.stop = b.2.start) (pairRanges hs n) := by
  induction hs with
  | nil => simp [pairRanges]
  | cons p rest ih =>
    cases rest with
    | nil => simp [pairRanges]
    | cons q rest' =>
      rw [pairRanges, List.chain'_cons']
      refine ⟨?_, ih⟩
      intro y hy
      have hne : pairRanges (q :: rest') n ≠ [] := by
        intro hnil
        have := pairRanges_length (q :: rest') n
        rw [hnil] at this
        simp at this
      have hhead := pairRanges_head_start (q :: rest') n (by simp)
      have : (pairRanges (q :: rest') n).headD default = y := by
        cases hh : pairRanges (q :: rest') n with
        | nil => exact absurd hh hne
        | cons a l =>
          rw [hh] at hy
          simp only [List.head?_cons, Option.mem_def, Option.some.injEq] at hy
          simp [hy]
      rw [this] at hhead
      simp [hhead]

theorem getLastD_irrel {α : Type} (l : List α) (hl : l ≠ []) (a b : α) :
    l.getLastD a = l.getLastD b := by
  cases l with
  | nil => exact absurd rfl hl
  | cons c t => rw [List.getLastD_cons, List.getLastD_cons]

theorem pairRanges_last_stop (hs : List (Nat × Cell)) (n : Nat)
    (h : hs ≠ []) :
    ((pairRanges hs n).getLastD default).2.stop = n := by
  induction hs with
  | nil => exact absurd rfl h
  | cons p rest ih =>
    cases rest with
    | nil => rfl
    | cons q rest' =>
      have hne : pairRanges (q :: rest') n ≠ [] := by
        intro hnil
        have := pairRanges_length (q :: rest') n
        rw [hnil] at this
        simp at this
      rw [pairRanges, List.getLastD_cons,
        getLastD_irrel _ hne _ default]
      exact ih (by simp)

theorem findSectionRanges_eq_pairRanges (g : Grid)
    (h : ((nonEmptyHeaders g).map Prod.snd).Nodup) :
    findSectionRanges g = pairRanges (nonEmptyHeaders g) g.ncols := by
  unfold findSectionRanges
  rw [foldl_dictInsert_fresh _ _ (by rw [pairRanges_names]; exact h)
    (by simp)]
  simp

/-! ### Claims C1 and C10: section-range discovery -/

/-- A grid whose header row repeats the same section name twice. -/
def gDupHeader : Grid :=
  ⟨2, [[], [], [Cell.text "A", Cell.text "A"]]⟩

/-- Claim C1, as stated, is false: this grid's header row has exactly 2
non-empty cells at strictly increasing columns, yet `find_section_ranges`
returns a single range, because the `dict` keyed by header value collapses
the repeated name. -/
theorem claim_C1_counterexample :
    (nonEmptyHeaders gDupHeader).map Prod.fst = [0, 1] ∧
    (nonEmptyHeaders gDupHeader).length = 2 ∧
    (findSectionRanges gDupHeader).length = 1 := by
  decide

/-- Claim C1 (amended: the N non-empty header cells carry pairwise-distinct
values): `find_section_ranges` returns exactly N ranges, each range starts
at the column of its header cell, consecutive ranges are contiguous, and
the last range's end equals the grid's column count. -/
theorem claim_C1 (g : Grid) (N : Nat)
    (hN : (nonEmptyHeaders g).length = N)
    (hdist : ((nonEmptyHeaders g).map Prod.snd).Nodup)
    (hpos : 0 < N) :
    (findSectionRanges g).length = N ∧
    (findSectionRanges g).map (fun p => p.2.start) =
      (nonEmptyHeaders g).map Prod.fst ∧
    List.Chain' (fun a b => a.2.stop = b.2.start) (findSectionRanges g) ∧
    ((findSectionRanges g).getLastD default).2.stop = g.ncols := by
  rw [findSectionRanges_eq_pairRanges g hdist]
  refine ⟨by rw [pairRanges_length, hN], pairRanges_starts _ _,
    pairRanges_chain _ _, pairRanges_last_stop _ _ ?_⟩
  intro hnil
  rw [hnil] at hN
  simp at hN
  omega

/-- The spec's scenario grid: header row `["", "Imports", "", "Exports", ""]`
at row 2, sub-headers at row 3, two data rows. -/
def gScenario : Grid :=
  ⟨5, [[], [],
    [Cell.empty, Cell.text "Imports", Cell.empty, Cell.text "Exports",
     Cell.empty],
    [Cell.text "Month", Cell.text "Coal", Cell.text "Grain",
     Cell.text "Containers", Cell.text "TEU"],
    [Cell.text "2023-01-01 00:00:00", Cell.num 5, Cell.num 6, Cell.num 7,
     Cell.num 8],
    [Cell.text "2023-02-01 00:00:00", Cell.num 1, Cell.num 2, Cell.num 3,
     Cell.num 4]]⟩

/-- Witness for `claim_C1` at the spec's scenario grid. -/
theorem claim_C1_witness :
    (findSectionRanges gScenario).length = 2 ∧
    (findSectionRanges gScenario).map (fun p => p.2.start) =
      (nonEmptyHeaders gScenario).map Prod.fst ∧
    List.Chain' (fun a b => a.2.stop = b.2.start)
      (findSectionRanges gScenario) ∧
    ((findSectionRanges gScenario).getLastD default).2.stop =
      gScenario.ncols :=
  claim_C1 gScenario 2 (by decide) (by decide) (by decide)

/-- Claim C10: with a repeated header value, the mapping returned by
`find_section_ranges` keeps a single, duplicate-free entry per name, the
number of entries is the number of distinct non-empty header values (hence
strictly fewer than the number of non-empty header cells), and the value
bound to each name is the range of its rightmost occurrence (the last
assignment wins). -/
theorem claim_C10 (g : Grid)
    (hdup : ¬ ((nonEmptyHeaders g).map Prod.snd).Nodup) :
    ((findSectionRanges g).map Prod.fst).Nodup ∧
    (findSectionRanges g).length =
      ((nonEmptyHeaders g).map Prod.snd).toFinset.card ∧
    (findSectionRanges g).length < (nonEmptyHeaders g).length ∧
    (∀ k, dictFind k (findSectionRanges g) =
      lastFind k (pairRanges (nonEmptyHeaders g) g.ncols)) := by
  have hnodup : ((findSectionRanges g).map Prod.fst).Nodup :=
    foldl_dictInsert_keys_nodup _ [] (by simp)
  have htf : ((findSectionRanges g).map Prod.fst).toFinset =
      ((nonEmptyHeaders g).map Prod.snd).toFinset := by
    unfold findSectionRanges
    rw [foldl_dictInsert_keys_toFinset, ← pairRanges_names _ g.ncols]
    simp
  have hlen : (findSectionRanges g).length =
      ((nonEmptyHeaders g).map Prod.snd).toFinset.card := by
    rw [← List.length_map (findSectionRanges g) Prod.fst,
      ← List.toFinset_card_of_nodup hnodup, htf]
  refine ⟨hnodup, hlen, ?_, ?_⟩
  · rw [hlen, List.card_toFinset]
    have hsub := List.dedup_sublist ((nonEmptyHeaders g).map Prod.snd)
    have hle := hsub.length_le
    rcases Nat.lt_or_ge (((nonEmptyHeaders g).map Prod.snd).dedup).length
        (((nonEmptyHeaders g).map Prod.snd)).length with hlt | hge
    · simpa using hlt
    · exfalso
      apply hdup
      have heq := hsub.eq_of_length (Nat.le_antisymm hle hge)
      rw [← heq]
      exact List.nodup_dedup _
  · intro k
    have := foldl_dictInsert_find
      (pairRanges (nonEmptyHeaders g) g.ncols) [] k
    rw [findSectionRanges, this]
    simp [dictFind]

/-! ### Claim C2: column selection of a section -/

/-- A grid whose first non-empty header cell sits at column 0, so the
first section's range starts at column 0. -/
def gHeaderAtZero : Grid :=
  ⟨2, [[], [], [Cell.text "S", Cell.empty]]⟩

/-- Claim C2, as stated, is false: for the section range `[0, 2)` produced
by `find_section_ranges` on this grid, `np.r_[0, 0:2]` selects column 0
twice — the selection is a concatenation, not a union. -/
theorem claim_C2_counterexample :
    findSectionRanges gHeaderAtZero = [(Cell.text "S", ⟨0, 2⟩)] ∧
    colSelection ⟨0, 2⟩ = [0, 0, 1] ∧
    List.count 0 (colSelection ⟨0, 2⟩) = 2 := by
  decide

/-- Claim C2 (amended): `extract_section` selects column 0 followed by the
range's columns by concatenation — the date column is always first; the
selection is duplicate-free whenever the range starts at a positive
column, but a range starting at column 0 makes column 0 appear twice. -/
theorem claim_C2 (r : ColRange) :
    (colSelection r).head? = some 0 ∧
    (0 < r.start → (colSelection r).Nodup) ∧
    (r.start = 0 → 0 < r.stop → List.count 0 (colSelection r) = 2) := by
  refine ⟨rfl, ?_, ?_⟩
  · intro hs
    rw [colSelection, List.nodup_cons]
    refine ⟨?_, List.nodup_range' _ _⟩
    intro hmem
    rw [List.mem_range'_1] at hmem
    omega
  · intro hs hstop
    rw [colSelection, hs]
    have h0 : (0 : Nat) ∈ List.range' 0 (r.stop - 0) := by
      rw [List.mem_range'_1]
      omega
    rw [List.count_cons_self]
    rw [List.count_eq_one_of_mem (List.nodup_range' _ _) h0]

/-- Witness for `claim_C2`: the selection for range `[1, 3)` is `[0, 1, 2]`
(duplicate-free, date column first), while range `[0, 2)` selects column 0
twice. -/
theorem claim_C2_witness :
    (colSelection ⟨1, 3⟩).head? = some 0 ∧
    (colSelection ⟨1, 3⟩).Nodup ∧
    List.count 0 (colSelection ⟨0, 2⟩) = 2 :=
  ⟨(claim_C2 ⟨1, 3⟩).1, (claim_C2 ⟨1, 3⟩).2.1 (by decide),
    (claim_C2 ⟨0, 2⟩).2.2 (by decide) (by decide)⟩

/-- Witness for `claim_C10` at the duplicate-header grid: one entry, and
the surviving range `[1, 2)` is the rightmost `"A"` section's. -/
theorem claim_C10_witness :
    ((findSectionRanges gDupHeader).map Prod.fst).Nodup ∧
    (findSectionRanges gDupHeader).length =
      ((nonEmptyHeaders gDupHeader).map Prod.snd).toFinset.card ∧
    (findSectionRanges gDupHeader).length <
      (nonEmptyHeaders gDupHeader).length ∧
    (∀ k, dictFind k (findSectionRanges gDupHeader) =
      lastFind k (pairRanges (nonEmptyHeaders gDupHeader)
        gDupHeader.ncols)) :=
  claim_C10 gDupHeader (by decide)

/-! ### Claim C5: structural validation pre-pass -/

/-- Claim C5: the validation pre-pass fails (always with a
`StructureError`) exactly when the main sheet is missing, the main sheet
has no more rows than `DATA_START_ROW`, or its header row has zero
non-empty cells; a missing main sheet yields a message naming it; and any
validation failure aborts the whole workbook build with that error, so no
section output is produced. -/
theorem claim_C5 (ss : Spreadsheet) :
    ((∃ e, validateExcelStructure ss = .error e) ↔
      (List.lookup MAIN_SHEET ss = none ∨
        ∃ g, List.lookup MAIN_SHEET ss = some g ∧
          (g.nrows ≤ DATA_START_ROW ∨ nonEmptyHeaders g = []))) ∧
    (∀ e, validateExcelStructure ss = .error e →
      ∃ msg, e = .structureError msg) ∧
    (List.lookup MAIN_SHEET ss = none →
      validateExcelStructure ss =
        .error (.structureError ("Missing required sheet: " ++ MAIN_SHEET))) ∧
    (∀ e, validateExcelStructure ss = .error e →
      buildWorkbook ss = .error e) := by
  cases hm : List.lookup MAIN_SHEET ss with
  | none =>
    have hv : validateExcelStructure ss =
        .error (.structureError ("Missing required sheet: " ++ MAIN_SHEET)) := by
      simp only [validateExcelStructure, hm]
    refine ⟨⟨fun _ => Or.inl rfl, fun _ => ⟨_, hv⟩⟩, fun e he => ?_,
      fun _ => hv, fun e he => ?_⟩
    · rw [hv] at he
      injection he with h
      exact ⟨_, h.symm⟩
    · rw [hv] at he
      injection he with h
      simp only [buildWorkbook, hv, ← h]
  | some m =>
    by_cases h1 : m.nrows ≤ DATA_START_ROW
    · have hv : validateExcelStructure ss =
          .error (.structureError "Sheet has insufficient rows") := by
        simp only [validateExcelStructure, hm]
        rw [if_pos h1]
      refine ⟨⟨fun _ => Or.inr ⟨m, rfl, Or.inl h1⟩, fun _ => ⟨_, hv⟩⟩,
        fun e he => ?_, fun hn => Option.noConfusion hn, fun e he => ?_⟩
      · rw [hv] at he
        injection he with h
        exact ⟨_, h.symm⟩
      · rw [hv] at he
        injection he with h
        simp only [buildWorkbook, hv, ← h]
    · have h2 : ¬ m.nrows ≤ HEADER_ROW := by
        rw [DATA_START_ROW] at h1
        rw [HEADER_ROW]
        omega
      by_cases h3 : (nonEmptyHeaders m).length = 0
      · have hv : validateExcelStructure ss =
            .error (.structureError "No section headers found") := by
          simp only [validateExcelStructure, hm]
          rw [if_neg h1, if_neg h2, if_pos h3]
        refine ⟨⟨fun _ =>
            Or.inr ⟨m, rfl, Or.inr (List.length_eq_zero.mp h3)⟩,
          fun _ => ⟨_, hv⟩⟩, fun e he => ?_,
          fun hn => Option.noConfusion hn, fun e he => ?_⟩
        · rw [hv] at he
          injection he with h
          exact ⟨_, h.symm⟩
        · rw [hv] at he
          injection he with h
          simp only [buildWorkbook, hv, ← h]
      · have hv : validateExcelStructure ss = .ok () := by
          simp only [validateExcelStructure, hm]
          rw [if_neg h1, if_neg h2, if_neg h3]
        refine ⟨⟨fun ⟨e, he⟩ => absurd (he.symm.trans hv) (by simp),
          fun h => ?_⟩, fun e he => absurd (he.symm.trans hv) (by simp),
          fun hn => Option.noConfusion hn,
          fun e he => absurd (he.symm.trans hv) (by simp)⟩
        rcases h with h | ⟨g, hg, hbad⟩
        · exact Option.noConfusion h
        · injection hg with hg'
          cases hg'
          rcases hbad with hbad | hbad
          · exact absurd hbad h1
          · exact absurd (by rw [hbad]; rfl) h3

/-- A spreadsheet missing the main sheet. -/
def ssMissing : Spreadsheet := [("Readme", ⟨0, []⟩)]

/-- Witness for `claim_C5` at a spreadsheet whose main sheet is missing. -/
theorem claim_C5_witness :
    ((∃ e, validateExcelStructure ssMissing = .error e) ↔
      (List.lookup MAIN_SHEET ssMissing = none ∨
        ∃ g, List.lookup MAIN_SHEET ssMissing = some g ∧
          (g.nrows ≤ DATA_START_ROW ∨ nonEmptyHeaders g = []))) ∧
    (∀ e, validateExcelStructure ssMissing = .error e →
      ∃ msg, e = .structureError msg) ∧
    (List.lookup MAIN_SHEET ssMissing = none →
      validateExcelStructure ssMissing =
        .error (.structureError ("Missing required sheet: " ++ MAIN_SHEET))) ∧
    (∀ e, validateExcelStructure ssMissing = .error e →
      buildWorkbook ssMissing = .error e) :=
  claim_C5 ssMissing

/-! ### `Except` traversal lemmas -/

theorem exIsOk_false_iff {ε α : Type} (x : Except ε α) :
    exIsOk x = false ↔ ∃ e, x = .error e := by
  cases x <;> simp [exIsOk]

theorem exIsOk_true_iff {ε α : Type} (x : Except ε α) :
    exIsOk x = true ↔ ∃ a, x = .ok a := by
  cases x <;> simp [exIsOk]

theorem mapMExcept_ok_iff {α β : Type} (f : α → Except ScrapeError β)
    (l : List α) :
    exIsOk (mapMExcept f l) = true ↔ ∀ a ∈ l, exIsOk (f a) = true := by
  induction l with
  | nil => simp [mapMExcept, exIsOk]
  | cons a as ih =>
    cases hfa : f a with
    | error e => simp [mapMExcept, hfa, exIsOk]
    | ok b =>
      cases hrest : mapMExcept f as with
      | error e =>
        rw [hrest] at ih
        simp only [mapMExcept, hfa, hrest]
        simp only [exIsOk] at ih ⊢
        constructor
        · intro h; exact absurd h (by simp)
        · intro h
          exact absurd (fun a ha => h a (List.mem_cons_of_mem _ ha))
            (by rw [← ih]; simp)
      | ok bs =>
        rw [hrest] at ih
        simp only [mapMExcept, hfa, hrest]
        simp only [exIsOk] at ih ⊢
        simp [hfa, ← ih, exIsOk]

theorem mapMExcept_ok_mem {α β : Type} {f : α → Except ScrapeError β}
    {l : List α} {bs : List β} (h : mapMExcept f l = .ok bs) :
    ∀ b ∈ bs, ∃ a ∈ l, f a = .ok b := by
  induction l generalizing bs with
  | nil =>
    simp only [mapMExcept] at h
    injection h with h
    subst h
    simp
  | cons a as ih =>
    simp only [mapMExcept] at h
    cases hfa : f a with
    | error e => rw [hfa] at h; exact absurd h (by simp)
    | ok b0 =>
      rw [hfa] at h
      cases hrest : mapMExcept f as with
      | error e => rw [hrest] at h; exact absurd h (by simp)
      | ok bs0 =>
        rw [hrest] at h
        injection h with h
        subst h
        intro b hb
        rcases List.mem_cons.mp hb with hb | hb
        · exact ⟨a, by simp, hb ▸ hfa⟩
        · rcases ih hrest b hb with ⟨a', ha', hfa'⟩
          exact ⟨a', by simp [ha'], hfa'⟩

/-! ### Claim C3: per-section fault isolation -/

theorem eq_of_mem_nodup_keys {β : Type} {l : List (Cell × β)}
    (h : (l.map Prod.fst).Nodup) {p q : Cell × β}
    (hp : p ∈ l) (hq : q ∈ l) (hk : p.1 = q.1) : p = q := by
  induction l with
  | nil => simp at hp
  | cons a rest ih =>
    rw [List.map_cons] at h
    have hcons := List.nodup_cons.mp h
    rcases List.mem_cons.mp hp with hp' | hp' <;>
      rcases List.mem_cons.mp hq with hq' | hq'
    · rw [hp', hq']
    · exfalso
      apply hcons.1
      have hmm : q.1 ∈ rest.map Prod.fst := List.mem_map_of_mem Prod.fst hq'
      rwa [← hk, hp'] at hmm
    · exfalso
      apply hcons.1
      have hmm : p.1 ∈ rest.map Prod.fst := List.mem_map_of_mem Prod.fst hp'
      rwa [hk, hq'] at hmm
    · exact ih hcons.2 hp' hq'

theorem parseAll_foldl (g : Grid) (l : List (Cell × ColRange))
    (acc : List (Cell × CleanFrame)) :
    l.foldl (fun acc p =>
      match extractSectionData g p.2 with
      | .ok t => acc ++ [(p.1, t)]
      | .error _ => acc) acc
    = acc ++ l.filterMap (fun p =>
        match extractSectionData g p.2 with
        | .ok t => some (p.1, t)
        | .error _ => none) := by
  induction l generalizing acc with
  | nil => simp
  | cons p rest ih =>
    simp only [List.foldl_cons, List.filterMap_cons]
    cases hx : extractSectionData g p.2 with
    | ok t =>
      rw [ih]
      simp
    | error e => rw [ih]

/-- Claim C3: on a grid that passed structural validation,
`_parse_all_sections` fails with the no-sections error exactly when every
section's extraction fails; every section whose extraction succeeds
appears in the output; and a section whose extraction fails is omitted
from the output. -/
theorem claim_C3 (ss : Spreadsheet) (g : Grid)
    (_hv : validateExcelStructure ss = .ok ())
    (_hm : List.lookup MAIN_SHEET ss = some g) :
    (parseAllSections g = .error .noSectionsParsed ↔
      ∀ p ∈ findSectionRanges g, exIsOk (extractSectionData g p.2) = false) ∧
    (∀ p ∈ findSectionRanges g, ∀ t, extractSectionData g p.2 = .ok t →
      ∃ out, parseAllSections g = .ok out ∧ (p.1, t) ∈ out) ∧
    (∀ p ∈ findSectionRanges g, exIsOk (extractSectionData g p.2) = false →
      ∀ out, parseAllSections g = .ok out → ∀ t, (p.1, t) ∉ out) := by
  have hpar : parseAllSections g =
      (if ((findSectionRanges g).filterMap (fun p =>
          match extractSectionData g p.2 with
          | .ok t => some (p.1, t)
          | .error _ => none)).isEmpty
        then .error .noSectionsParsed
        else .ok ((findSectionRanges g).filterMap (fun p =>
          match extractSectionData g p.2 with
          | .ok t => some (p.1, t)
          | .error _ => none))) := by
    unfold parseAllSections
    rw [parseAll_foldl]
    simp
  refine ⟨?_, ?_, ?_⟩
  · rw [hpar]
    constructor
    · intro h p hp
      by_cases hempty : ((findSectionRanges g).filterMap (fun p =>
          match extractSectionData g p.2 with
          | .ok t => some (p.1, t)
          | .error _ => none)).isEmpty
      · rw [List.isEmpty_iff, List.filterMap_eq_nil_iff] at hempty
        have := hempty p hp
        cases hx : extractSectionData g p.2 with
        | ok t => rw [hx] at this; exact absurd this (by simp)
        | error e => simp [exIsOk]
      · rw [if_neg hempty] at h
        exact absurd h (by simp)
    · intro h
      rw [if_pos]
      rw [List.isEmpty_iff, List.filterMap_eq_nil_iff]
      intro p hp
      have := h p hp
      rw [exIsOk_false_iff] at this
      rcases this with ⟨e, he⟩
      simp [he]
  · intro p hp t ht
    have hmem : (p.1, t) ∈ (findSectionRanges g).filterMap (fun p =>
        match extractSectionData g p.2 with
        | .ok t => some (p.1, t)
        | .error _ => none) := by
      rw [List.mem_filterMap]
      exact ⟨p, hp, by rw [ht]⟩
    refine ⟨_, ?_, hmem⟩
    rw [hpar, if_neg]
    rw [List.isEmpty_iff]
    intro hnil
    rw [hnil] at hmem
    simp at hmem
  · intro p hp hfail out hout t hmem
    rw [hpar] at hout
    by_cases hempty : ((findSectionRanges g).filterMap (fun p =>
        match extractSectionData g p.2 with
        | .ok t => some (p.1, t)
        | .error _ => none)).isEmpty
    · rw [if_pos hempty] at hout
      exact absurd hout (by simp)
    · rw [if_neg hempty] at hout
      injection hout with hout
      rw [← hout] at hmem
      rw [List.mem_filterMap] at hmem
      rcases hmem with ⟨q, hq, hfq⟩
      cases hx : extractSectionData g q.2 with
      | error e => rw [hx] at hfq; exact absurd hfq (by simp)
      | ok t' =>
        rw [hx] at hfq
        have h0 := Option.some.inj hfq
        have h1 : q.1 = p.1 := (Prod.ext_iff.mp h0).1
        have hkeys : ((findSectionRanges g).map Prod.fst).Nodup :=
          foldl_dictInsert_keys_nodup _ [] (by simp)
        have : q = p := eq_of_mem_nodup_keys hkeys hq hp h1
        rw [this] at hx
        rw [exIsOk_false_iff] at hfail
        rcases hfail with ⟨e, he⟩
        rw [he] at hx
        exact absurd hx (by simp)

/-- A grid with one well-formed section (`"Good"`) and one section
(`"Bad"`) whose own `"Month"`-labelled column holds an unparseable text. -/
def gPartial : Grid :=
  ⟨3, [[], [],
    [Cell.empty, Cell.text "Good", Cell.text "Bad"],
    [Cell.text "Month", Cell.text "Coal", Cell.text "Month"],
    [Cell.text "2023-01-01 00:00:00", Cell.num 5, Cell.text "garbage"]]⟩

/-- The spreadsheet wrapping `gPartial` as the main sheet. -/
def ssPartial : Spreadsheet := [(MAIN_SHEET, gPartial)]

/-- Witness for `claim_C3` at `gPartial`, a validated grid on which one
section fails and one succeeds. -/
theorem claim_C3_witness :
    (parseAllSections gPartial = .error .noSectionsParsed ↔
      ∀ p ∈ findSectionRanges gPartial,
        exIsOk (extractSectionData gPartial p.2) = false) ∧
    (∀ p ∈ findSectionRanges gPartial, ∀ t,
      extractSectionData gPartial p.2 = .ok t →
      ∃ out, parseAllSections gPartial = .ok out ∧ (p.1, t) ∈ out) ∧
    (∀ p ∈ findSectionRanges gPartial,
      exIsOk (extractSectionData gPartial p.2) = false →
      ∀ out, parseAllSections gPartial = .ok out → ∀ t, (p.1, t) ∉ out) :=
  claim_C3 ssPartial gPartial (by rfl) (by rfl)

/-! ### Date-time round-trip lemmas -/

theorem digitVal_digitChar_all : ∀ k < 10, digitVal (digitChar k) = some k := by
  decide

theorem read2_pad2 (n : Nat) (h : n < 100) :
    read2 (digitChar (n / 10 % 10)) (digitChar (n % 10)) = some n := by
  rw [read2, digitVal_digitChar_all _ (by omega),
    digitVal_digitChar_all _ (by omega)]
  have hn : 10 * (n / 10 % 10) + n % 10 = n := by omega
  exact congrArg some hn

theorem read4_pad4 (n : Nat) (h : n < 10000) :
    read4 (digitChar (n / 1000 % 10)) (digitChar (n / 100 % 10))
      (digitChar (n / 10 % 10)) (digitChar (n % 10)) = some n := by
  rw [read4, digitVal_digitChar_all _ (by omega),
    digitVal_digitChar_all _ (by omega), digitVal_digitChar_all _ (by omega),
    digitVal_digitChar_all _ (by omega)]
  have hn : 1000 * (n / 1000 % 10) + 100 * (n / 100 % 10) +
      10 * (n / 10 % 10) + n % 10 = n := by omega
  exact congrArg some hn

theorem validDate_bounds (d : DateTime) (h : validDate d = true) :
    d.year < 10000 ∧ d.month < 100 ∧ d.day < 100 ∧ d.hour < 100 ∧
      d.minute < 100 ∧ d.second < 100 := by
  simp only [validDate, Bool.and_eq_true, decide_eq_true_eq] at h
  have hdim : daysInMonth d.year d.month ≤ 31 := by
    rw [daysInMonth]
    split_ifs <;> omega
  omega

theorem parse_render (sep : Char) (d : DateTime) (hv : validDate d = true) :
    parseDateTimeCore sep (renderDateTime sep d) = some d := by
  obtain ⟨hy, hmo, hda, hh, hmi, hse⟩ := validDate_bounds d hv
  rw [renderDateTime]
  simp only [pad4, pad2, List.cons_append, List.nil_append]
  rw [parseDateTimeCore]
  rw [if_pos ⟨rfl, rfl, rfl, rfl, rfl⟩]
  rw [read4_pad4 _ hy, read2_pad2 _ hmo, read2_pad2 _ hda,
    read2_pad2 _ hh, read2_pad2 _ hmi, read2_pad2 _ hse]
  have heta : (⟨d.year, d.month, d.day, d.hour, d.minute, d.second⟩ :
      DateTime) = d := rfl
  simp only [heta, hv, if_true]

theorem parseIso_isoformat (d : DateTime) (h : validDate d = true) :
    parseIso (isoformat d) = some d :=
  parse_render 'T' d h

/-! ### Claim C7: JSON sink round-trip -/

/-- Any date held in the cell is a valid calendar date-time. -/
def cellDatesValid (x : Cell) : Bool :=
  match x with
  | Cell.date d => validDate d
  | _ => true

/-- A text cell does not itself read as an ISO date-time (such a text would
decode as a date instead of a text). -/
def cellTextNotIso (x : Cell) : Bool :=
  match x with
  | Cell.text s => (parseIso s).isNone
  | _ => true

theorem decodeCell_encodeCell (x : Cell) (hd : cellDatesValid x = true)
    (ht : cellTextNotIso x = true) : decodeCell (encodeCell x) = some x := by
  cases x with
  | empty => rfl
  | num n => rfl
  | text s =>
    simp only [cellTextNotIso, Option.isNone_iff_eq_none] at ht
    rw [encodeCell, decodeCell, ht]
  | date d =>
    simp only [cellDatesValid] at hd
    rw [encodeCell, decodeCell, parseIso_isoformat d hd]

theorem decodeRecord_encodeRecord (r : JRecord)
    (h : ∀ kv ∈ r, cellDatesValid kv.2 = true ∧ cellTextNotIso kv.2 = true) :
    decodeRecord (encodeRecord r) = some r := by
  induction r with
  | nil => rfl
  | cons kv rest ih =>
    have hkv := h kv (by simp)
    have hrest := fun kv hkvm => h kv (List.mem_cons_of_mem _ hkvm)
    simp only [encodeRecord, List.map_cons, decodeRecord, List.mapM_cons]
    rw [decodeCell_encodeCell kv.2 hkv.1 hkv.2]
    have h2 : List.mapM (fun p => (decodeCell p.2).map ((p.1, ·)))
        (rest.map (fun p => (p.1, encodeCell p.2))) = some rest := ih hrest
    rw [h2]
    rfl

theorem mapM_decodeRecord_encodeRecord (recs : List JRecord)
    (h : ∀ r ∈ recs, ∀ kv ∈ r,
      cellDatesValid kv.2 = true ∧ cellTextNotIso kv.2 = true) :
    (recs.map encodeRecord).mapM decodeRecord = some recs := by
  induction recs with
  | nil => rfl
  | cons r rest ih =>
    simp only [List.map_cons, List.mapM_cons]
    rw [decodeRecord_encodeRecord r (h r (by simp)),
      ih (fun r hr => h r (List.mem_cons_of_mem _ hr))]
    rfl

/-- Claim C7: serializing a Section Table to the JSON sink format (the
section name mapped to its ordered list of records, dates rendered as
ISO-8601 text) and parsing the JSON back yields the same section name and
the same ordered records — the date-to-text-to-date conversion is
lossless. The records may hold any numbers, texts that do not themselves
read as ISO date-times, missing values, and valid dates. -/
theorem claim_C7 (name : String) (recs : List JRecord)
    (h : ∀ r ∈ recs, ∀ kv ∈ r,
      cellDatesValid kv.2 = true ∧ cellTextNotIso kv.2 = true) :
    decodeSection (encodeSection name recs) = some (name, recs) := by
  rw [encodeSection, decodeSection,
    mapM_decodeRecord_encodeRecord recs h]
  rfl

/-- Sample Section Table records: a dated row with a numeric value. -/
def sampleRecords : List JRecord :=
  [[("Date", Cell.date ⟨2023, 1, 31, 0, 0, 0⟩),
    ("Coal (tonnes)", Cell.num 1000)],
   [("Date", Cell.date ⟨2024, 2, 29, 12, 30, 59⟩),
    ("Coal (tonnes)", Cell.num 2000)]]

/-- Witness for `claim_C7` at a concrete two-record section. -/
theorem claim_C7_witness :
    decodeSection (encodeSection "Imports" sampleRecords) =
      some ("Imports", sampleRecords) :=
  claim_C7 "Imports" sampleRecords (by decide)

/-! ### Sorting and cleaning lemmas -/

theorem insertByIdx_perm (p : Nat × List Cell) (l : List (Nat × List Cell)) :
    List.Perm (insertByIdx p l) (p :: l) := by
  induction l with
  | nil => exact List.Perm.refl _
  | cons q rest ih =>
    rw [insertByIdx]
    split_ifs with h
    · exact List.Perm.refl _
    · exact ((ih.cons q).trans (List.Perm.swap p q rest))

theorem sortIndex_perm (l : List (Nat × List Cell)) :
    List.Perm (sortIndex l) l := by
  induction l with
  | nil => exact List.Perm.refl _
  | cons p rest ih =>
    rw [sortIndex]
    exact (insertByIdx_perm p (sortIndex rest)).trans (ih.cons p)

theorem mem_sortIndex {x : Nat × List Cell} {l : List (Nat × List Cell)} :
    x ∈ sortIndex l ↔ x ∈ l :=
  (sortIndex_perm l).mem_iff

theorem exIsOk_map {ε α β : Type} (g : α → β) (x : Except ε α) :
    exIsOk (x.map g) = exIsOk x := by
  cases x <;> rfl

theorem month_not_mem_renameMonth (cols : List Cell) :
    Cell.text DATE_COLUMN ∉ renameMonth cols := by
  rw [renameMonth]
  intro hmem
  rw [List.mem_map] at hmem
  rcases hmem with ⟨c, _, heq⟩
  by_cases hc : c = Cell.text DATE_COLUMN
  · rw [if_pos hc] at heq
    exact absurd heq (by decide)
  · rw [if_neg hc] at heq
    exact hc heq

theorem date_mem_renameMonth (cols : List Cell)
    (h : Cell.text DATE_COLUMN ∈ cols) :
    Cell.text "Date" ∈ renameMonth cols :=
  List.mem_map.mpr ⟨Cell.text DATE_COLUMN, h, by simp⟩

theorem month_mem_cols1 (hdr : List Cell) :
    Cell.text DATE_COLUMN ∈
        (if Cell.text "Year" ∈ hdr then dropYearCols hdr else hdr) ↔
      Cell.text DATE_COLUMN ∈ hdr := by
  split_ifs with hY
  · rw [dropYearCols, List.mem_filter]
    simp [DATE_COLUMN]
  · exact Iff.rfl

theorem parseDateRow_fails_iff (cols row : List Cell)
    (hT : ∀ x ∈ dateCells cols row, ∃ s, x = Cell.text s) :
    exIsOk (parseDateRow cols row) = false ↔
      ∃ s, Cell.text s ∈ dateCells cols row ∧ parseDateStr s = none := by
  constructor
  · intro hfail
    by_contra hno
    push_neg at hno
    have hok : exIsOk (parseDateRow cols row) = true := by
      rw [parseDateRow, mapMExcept_ok_iff]
      intro q hq
      by_cases hdate : q.1 = Cell.text "Date"
      · rw [if_pos hdate]
        have hmem : q.2 ∈ dateCells cols row := by
          rw [dateCells, List.mem_filterMap]
          exact ⟨q, hq, by rw [if_pos hdate]⟩
        rcases hT q.2 hmem with ⟨s, hs⟩
        rw [hs, parseCellDate]
        cases hps : parseDateStr s with
        | none =>
          exact absurd hps (hno s (hs ▸ hmem))
        | some d => simp [exIsOk]
      · rw [if_neg hdate]
        simp [exIsOk]
    rw [hok] at hfail
    exact Bool.noConfusion hfail
  · rintro ⟨s, hmem, hps⟩
    rw [dateCells, List.mem_filterMap] at hmem
    rcases hmem with ⟨q, hq, hfq⟩
    by_cases hdate : q.1 = Cell.text "Date"
    · rw [if_pos hdate] at hfq
      have hq2 : q.2 = Cell.text s := Option.some.inj hfq
      cases hok : exIsOk (parseDateRow cols row) with
      | false => rfl
      | true =>
        exfalso
        rw [parseDateRow, mapMExcept_ok_iff] at hok
        have := hok q hq
        rw [if_pos hdate, hq2, parseCellDate, hps] at this
        exact Bool.noConfusion this
    · rw [if_neg hdate] at hfq
      exact absurd hfq (by simp)

theorem parseDateRow_dates (cols row out : List Cell)
    (h : parseDateRow cols row = .ok out) :
    ∀ x ∈ dateCells cols out,
      ∃ x0 ∈ dateCells cols row, parseCellDate x0 = .ok x := by
  induction cols generalizing row out with
  | nil =>
    rw [parseDateRow] at h
    simp only [List.zip_nil_left, mapMExcept] at h
    injection h with h
    subst h
    simp [dateCells]
  | cons c cs ih =>
    cases row with
    | nil =>
      rw [parseDateRow] at h
      simp only [List.zip_nil_right, mapMExcept] at h
      injection h with h
      subst h
      simp [dateCells]
    | cons x0 xs =>
      rw [parseDateRow, List.zip_cons_cons, mapMExcept] at h
      cases hstep : (if (c, x0).1 = Cell.text "Date"
          then parseCellDate (c, x0).2 else .ok (c, x0).2) with
      | error e => rw [hstep] at h; exact absurd h (by simp)
      | ok y =>
        rw [hstep] at h
        cases hrest : mapMExcept (fun p =>
            if p.1 = Cell.text "Date" then parseCellDate p.2 else .ok p.2)
            (cs.zip xs) with
        | error e => rw [hrest] at h; exact absurd h (by simp)
        | ok ys =>
          rw [hrest] at h
          injection h with h
          subst h
          intro x hx
          rw [dateCells, List.zip_cons_cons, List.filterMap_cons] at hx
          by_cases hdate : c = Cell.text "Date"
          · rw [if_pos (show ((c, y) : Cell × Cell).1 = Cell.text "Date"
              from hdate)] at hx
            rcases List.mem_cons.mp hx with hx' | hx'
            · refine ⟨x0, ?_, ?_⟩
              · rw [dateCells, List.zip_cons_cons, List.filterMap_cons,
                  if_pos (show ((c, x0) : Cell × Cell).1 = Cell.text "Date"
                    from hdate)]
                simp
              · rw [if_pos hdate] at hstep
                rw [hx']
                exact hstep
            · rcases ih xs ys hrest x hx' with ⟨x1, hx1, hpx1⟩
              refine ⟨x1, ?_, hpx1⟩
              rw [dateCells, List.zip_cons_cons, List.filterMap_cons,
                if_pos (show ((c, x0) : Cell × Cell).1 = Cell.text "Date"
                  from hdate)]
              rw [dateCells] at hx1
              exact List.mem_cons_of_mem _ hx1
          · rw [if_neg (show ¬ ((c, y) : Cell × Cell).1 = Cell.text "Date"
              from hdate)] at hx
            rcases ih xs ys hrest x hx with ⟨x1, hx1, hpx1⟩
            refine ⟨x1, ?_, hpx1⟩
            rw [dateCells, List.zip_cons_cons, List.filterMap_cons,
              if_neg (show ¬ ((c, x0) : Cell × Cell).1 = Cell.text "Date"
                from hdate)]
            rw [dateCells] at hx1
            exact hx1

/-! ### Claim C4: date column rename and parse -/

/-- Claim C4 (amended): when a promoted column header equals `DATE_COLUMN`
(`"Month"`) and the values sitting in the date column are texts, then —
provided the renamed labels contain `"Date"` exactly once — cleaning
renames the key to `"Date"` in the output columns (so in every output
record), parses every value of that column into a date value, and fails
with a parse error exactly when some text in the column does not match the
fixed `"%Y-%m-%d %H:%M:%S"` format; when the rename leaves more than one
`"Date"` label, `df["Date"]` is a DataFrame and the section always fails,
whatever the values. -/
theorem claim_C4 (f : Frame) (i0 : Nat) (hdr : List Cell)
    (rest : List (Nat × List Cell))
    (hrows : f.rows = (i0, hdr) :: rest)
    (hMonth : Cell.text DATE_COLUMN ∈ hdr)
    (hText : ∀ p ∈ rest, ∀ x ∈ dateCells (cleanCols hdr) (cleanRow hdr p.2),
      ∃ s, x = Cell.text s) :
    ((cleanCols hdr).count (Cell.text "Date") = 1 →
      (exIsOk (cleanSection f) = false ↔
        ∃ p ∈ rest, ∃ s,
          Cell.text s ∈ dateCells (cleanCols hdr) (cleanRow hdr p.2) ∧
          parseDateStr s = none) ∧
      (∀ t, cleanSection f = .ok t →
        t.columns = cleanCols hdr ∧
        Cell.text DATE_COLUMN ∉ t.columns ∧
        Cell.text "Date" ∈ t.columns ∧
        ∀ p ∈ t.rows, ∀ x ∈ dateCells t.columns p.2,
          ∃ d, x = Cell.date d)) ∧
    ((cleanCols hdr).count (Cell.text "Date") ≠ 1 →
      exIsOk (cleanSection f) = false) := by
  have hM1 : Cell.text DATE_COLUMN ∈
      (if Cell.text "Year" ∈ hdr then dropYearCols hdr else hdr) :=
    (month_mem_cols1 hdr).mpr hMonth
  have hcc : cleanCols hdr = renameMonth
      (if Cell.text "Year" ∈ hdr then dropYearCols hdr else hdr) := by
    simp only [cleanCols]
    rw [if_pos hM1]
  constructor
  · intro hu
    have hu' : (renameMonth
        (if Cell.text "Year" ∈ hdr then dropYearCols hdr
          else hdr)).count (Cell.text "Date") = 1 := by
      rw [← hcc]
      exact hu
    constructor
    · -- failure characterization
      have key : exIsOk (cleanSection f) =
          exIsOk (mapMExcept (fun p =>
            (parseDateRow (renameMonth
                (if Cell.text "Year" ∈ hdr then dropYearCols hdr else hdr))
              p.2).map ((p.1, ·)))
            (rest.map (fun p => (p.1, cleanRow hdr p.2)))) := by
        rw [cleanSection, hrows]
        simp only
        rw [if_pos hM1, if_pos hu']
        cases hres : mapMExcept (fun p =>
            (parseDateRow (renameMonth
                (if Cell.text "Year" ∈ hdr then dropYearCols hdr else hdr))
              p.2).map ((p.1, ·)))
            (rest.map (fun p => (p.1, cleanRow hdr p.2))) with
        | error e => rfl
        | ok rows2 => rfl
      rw [key]
      constructor
      · intro hfail
        have : ¬ ∀ a ∈ rest.map (fun p => (p.1, cleanRow hdr p.2)),
            exIsOk ((parseDateRow (renameMonth
                (if Cell.text "Year" ∈ hdr then dropYearCols hdr else hdr))
              a.2).map ((a.1, ·))) = true := by
          intro hall
          rw [(mapMExcept_ok_iff _ _).mpr hall] at hfail
          exact Bool.noConfusion hfail
        push_neg at this
        rcases this with ⟨a, ha, hfa⟩
        rw [List.mem_map] at ha
        rcases ha with ⟨p, hp, hpa⟩
        rw [exIsOk_map] at hfa
        have hfa' : exIsOk (parseDateRow (renameMonth
            (if Cell.text "Year" ∈ hdr then dropYearCols hdr else hdr))
            a.2) = false := by
          cases hb : exIsOk (parseDateRow _ a.2)
          · rfl
          · exact absurd hb hfa
        rw [← hpa] at hfa'
        simp only at hfa'
        have hT := hText p hp
        rw [hcc] at hT
        rcases (parseDateRow_fails_iff _ _ hT).mp hfa' with ⟨s, hs, hps⟩
        refine ⟨p, hp, s, ?_, hps⟩
        rw [hcc]
        exact hs
      · rintro ⟨p, hp, s, hs, hps⟩
        have hT := hText p hp
        rw [hcc] at hT hs
        have hfail := (parseDateRow_fails_iff _ _ hT).mpr ⟨s, hs, hps⟩
        cases hok : exIsOk (mapMExcept (fun p =>
            (parseDateRow (renameMonth
                (if Cell.text "Year" ∈ hdr then dropYearCols hdr else hdr))
              p.2).map ((p.1, ·)))
            (rest.map (fun p => (p.1, cleanRow hdr p.2)))) with
        | false => rfl
        | true =>
          exfalso
          rw [mapMExcept_ok_iff] at hok
          have := hok (p.1, cleanRow hdr p.2)
            (List.mem_map_of_mem _ hp)
          rw [exIsOk_map] at this
          simp only at this
          rw [hfail] at this
          exact Bool.noConfusion this
    · -- success shape
      intro t ht
      rw [cleanSection, hrows] at ht
      simp only at ht
      rw [if_pos hM1, if_pos hu'] at ht
      cases hres : mapMExcept (fun p =>
          (parseDateRow (renameMonth
              (if Cell.text "Year" ∈ hdr then dropYearCols hdr else hdr))
            p.2).map ((p.1, ·)))
          (rest.map (fun p => (p.1, cleanRow hdr p.2))) with
      | error e =>
        rw [hres] at ht
        exact absurd ht (by simp)
      | ok rows2 =>
        rw [hres] at ht
        injection ht with ht
        have hcols : t.columns = renameMonth
            (if Cell.text "Year" ∈ hdr then dropYearCols hdr else hdr) := by
          rw [← ht]
        have hrows2 : t.rows = sortIndex rows2 := by
          rw [← ht]
        have hc1 : t.columns = cleanCols hdr := by
          rw [hcols, hcc]
        have hc2 : Cell.text DATE_COLUMN ∉ t.columns := by
          rw [hcols]
          exact month_not_mem_renameMonth _
        have hc3 : Cell.text "Date" ∈ t.columns := by
          rw [hcols]
          exact date_mem_renameMonth _ hM1
        refine ⟨hc1, hc2, hc3, ?_⟩
        intro p hpmem x hx
        rw [hrows2, mem_sortIndex] at hpmem
        rcases mapMExcept_ok_mem hres p hpmem with ⟨a, ha, hfa⟩
        rw [List.mem_map] at ha
        rcases ha with ⟨q, hq, hqa⟩
        cases hpd : parseDateRow (renameMonth
            (if Cell.text "Year" ∈ hdr then dropYearCols hdr else hdr))
            a.2 with
        | error e =>
          rw [show ((parseDateRow (renameMonth
              (if Cell.text "Year" ∈ hdr then dropYearCols hdr else hdr))
              a.2).map ((a.1, ·))) = Except.error e by rw [hpd]; rfl] at hfa
          exact absurd hfa (by simp)
        | ok out =>
          have hfa' : Except.ok (ε := ScrapeError) (a.1, out) =
              Except.ok (p.1, p.2) := by
            rw [show (Except.ok (ε := ScrapeError) (a.1, out)) =
              ((parseDateRow (renameMonth
                (if Cell.text "Year" ∈ hdr then dropYearCols hdr else hdr))
                a.2).map ((a.1, ·))) by rw [hpd]; rfl, hfa]
          have hp2 : p.2 = out :=
            ((Prod.ext_iff.mp (Option.some.inj
              (congrArg Except.toOption hfa'))).2).symm
          rw [hcols, hp2] at hx
          rcases parseDateRow_dates _ _ _ hpd x hx with ⟨x1, hx1, hpx1⟩
          have hT := hText q hq
          rw [hcc] at hT
          rw [← hqa] at hx1
          simp only at hx1
          rcases hT x1 hx1 with ⟨s, hsx⟩
          rw [hsx, parseCellDate] at hpx1
          cases hps : parseDateStr s with
          | none =>
            rw [hps] at hpx1
            exact absurd hpx1 (by simp)
          | some d =>
            rw [hps] at hpx1
            exact ⟨d, (Option.some.inj
              (congrArg Except.toOption hpx1)).symm ▸ rfl⟩
  · intro hu
    have hu' : ¬ (renameMonth
        (if Cell.text "Year" ∈ hdr then dropYearCols hdr
          else hdr)).count (Cell.text "Date") = 1 := by
      rw [← hcc]
      exact hu
    rw [cleanSection, hrows]
    simp only
    rw [if_pos hM1, if_neg hu']
    rfl

/-- A section frame whose promoted header holds `"Month"` twice; every
value of the date columns is a text matching the fixed format. -/
def dupMonthFrame : Frame :=
  ⟨[(3, [Cell.text "Month", Cell.text "Month"]),
    (4, [Cell.text "2023-01-01 00:00:00",
         Cell.text "2023-02-01 00:00:00"])]⟩

/-- Claim C4, as stated, is false of the program: in this frame every
value of the date columns matches the fixed `"%Y-%m-%d %H:%M:%S"` format,
yet cleaning fails — the doubled `"Month"` header renames to two `"Date"`
labels, so `df["Date"]` is a DataFrame and `pd.to_datetime` raises
`ValueError` regardless of the values. -/
theorem claim_C4_counterexample :
    parseDateStr "2023-01-01 00:00:00" = some ⟨2023, 1, 1, 0, 0, 0⟩ ∧
    parseDateStr "2023-02-01 00:00:00" = some ⟨2023, 2, 1, 0, 0, 0⟩ ∧
    cleanCols [Cell.text "Month", Cell.text "Month"] =
      [Cell.text "Date", Cell.text "Date"] ∧
    exIsOk (cleanSection dupMonthFrame) = false := by
  decide

/-- A section frame with a promoted `"Month"` header and two text dates. -/
def sampleFrame : Frame :=
  ⟨[(3, [Cell.text "Month", Cell.text "Coal"]),
    (4, [Cell.text "2023-01-01 00:00:00", Cell.num 5]),
    (5, [Cell.text "2023-02-01 00:00:00", Cell.num 6])]⟩

/-- Witness for `claim_C4` at `sampleFrame`. -/
theorem claim_C4_witness :
    ((cleanCols [Cell.text "Month", Cell.text "Coal"]).count
        (Cell.text "Date") = 1 →
      (exIsOk (cleanSection sampleFrame) = false ↔
        ∃ p ∈ [((4 : Nat), [Cell.text "2023-01-01 00:00:00", Cell.num 5]),
               ((5 : Nat), [Cell.text "2023-02-01 00:00:00", Cell.num 6])],
          ∃ s, Cell.text s ∈
            dateCells (cleanCols [Cell.text "Month", Cell.text "Coal"])
              (cleanRow [Cell.text "Month", Cell.text "Coal"] p.2) ∧
            parseDateStr s = none) ∧
      (∀ t, cleanSection sampleFrame = .ok t →
        t.columns = cleanCols [Cell.text "Month", Cell.text "Coal"] ∧
        Cell.text DATE_COLUMN ∉ t.columns ∧
        Cell.text "Date" ∈ t.columns ∧
        ∀ p ∈ t.rows, ∀ x ∈ dateCells t.columns p.2,
          ∃ d, x = Cell.date d)) ∧
    ((cleanCols [Cell.text "Month", Cell.text "Coal"]).count
        (Cell.text "Date") ≠ 1 →
      exIsOk (cleanSection sampleFrame) = false) :=
  claim_C4 sampleFrame 3 [Cell.text "Month", Cell.text "Coal"]
    [((4 : Nat), [Cell.text "2023-01-01 00:00:00", Cell.num 5]),
     ((5 : Nat), [Cell.text "2023-02-01 00:00:00", Cell.num 6])]
    rfl (by decide)
    (by
      intro p hp x hx
      rcases List.mem_cons.mp hp with hp' | hp'
      · subst hp'
        have hx' : x ∈ [Cell.text "2023-01-01 00:00:00"] := hx
        exact ⟨"2023-01-01 00:00:00", List.mem_singleton.mp hx'⟩
      · rcases List.mem_cons.mp hp' with hp'' | hp''
        · subst hp''
          have hx' : x ∈ [Cell.text "2023-02-01 00:00:00"] := hx
          exact ⟨"2023-02-01 00:00:00", List.mem_singleton.mp hx'⟩
        · exact absurd hp'' (by simp))

/-! ### Width invariants (claims C6 and C8) -/

theorem selectData_width (g : Grid) (cols : List Nat) :
    ∀ p ∈ (selectData g cols).rows, p.2.length = cols.length := by
  intro p hp
  rw [selectData] at hp
  simp only [List.mem_map] at hp
  rcases hp with ⟨q, _, hq⟩
  rw [← hq]
  simp

theorem dropYearRow_length (hdr row : List Cell)
    (h : row.length = hdr.length) :
    (dropYearRow hdr row).length = (dropYearCols hdr).length := by
  induction hdr generalizing row with
  | nil =>
    cases row with
    | nil => rfl
    | cons x xs => exact absurd h (by simp)
  | cons c cs ih =>
    cases row with
    | nil => exact absurd h (by simp)
    | cons x xs =>
      simp only [List.length_cons, Nat.add_right_cancel_iff] at h
      rw [dropYearRow, List.zip_cons_cons, List.filterMap_cons]
      rw [dropYearCols, List.filter_cons]
      by_cases hc : c = Cell.text "Year"
      · rw [if_pos (show ((c, x) : Cell × Cell).1 = Cell.text "Year" from hc)]
        rw [if_neg (by simp [hc])]
        exact ih xs h
      · rw [if_neg (show ¬ ((c, x) : Cell × Cell).1 = Cell.text "Year"
          from hc)]
        rw [if_pos (by simp [hc])]
        simp only [List.length_cons, Nat.add_right_cancel_iff]
        exact ih xs h

theorem cleanCols_length (hdr : List Cell) :
    (cleanCols hdr).length =
      (if Cell.text "Year" ∈ hdr then dropYearCols hdr else hdr).length := by
  rw [cleanCols]
  split_ifs with h2 <;> simp [renameMonth]

theorem cleanRow_length (hdr row : List Cell) (h : row.length = hdr.length) :
    (cleanRow hdr row).length = (cleanCols hdr).length := by
  rw [cleanRow, cleanCols_length]
  split_ifs with hY
  · exact dropYearRow_length hdr row h
  · exact h

theorem mapMExcept_length {α β : Type} {f : α → Except ScrapeError β}
    {l : List α} {bs : List β} (h : mapMExcept f l = .ok bs) :
    bs.length = l.length := by
  induction l generalizing bs with
  | nil =>
    rw [mapMExcept] at h
    injection h with h
    subst h
    rfl
  | cons a as ih =>
    rw [mapMExcept] at h
    cases hfa : f a with
    | error e => rw [hfa] at h; exact absurd h (by simp)
    | ok b =>
      rw [hfa] at h
      cases hrest : mapMExcept f as with
      | error e => rw [hrest] at h; exact absurd h (by simp)
      | ok bs0 =>
        rw [hrest] at h
        injection h with h
        subst h
        simp [ih hrest]

theorem parseDateRow_length (cols row out : List Cell)
    (h : parseDateRow cols row = .ok out) :
    out.length = min cols.length row.length := by
  rw [parseDateRow] at h
  rw [mapMExcept_length h, List.length_zip]

theorem cleanSection_ok_shape (f : Frame) (t : CleanFrame)
    (h : cleanSection f = .ok t) :
    ∃ i0 hdr rest, f.rows = (i0, hdr) :: rest ∧
      t.columns = cleanCols hdr := by
  cases hrows : f.rows with
  | nil =>
    rw [cleanSection, hrows] at h
    exact absurd h (by simp)
  | cons p rest =>
    obtain ⟨i0, hdr⟩ := p
    rw [cleanSection, hrows] at h
    simp only at h
    refine ⟨i0, hdr, rest, rfl, ?_⟩
    by_cases hM : Cell.text DATE_COLUMN ∈
        (if Cell.text "Year" ∈ hdr then dropYearCols hdr else hdr)
    · rw [if_pos hM] at h
      by_cases hu : (renameMonth
          (if Cell.text "Year" ∈ hdr then dropYearCols hdr
            else hdr)).count (Cell.text "Date") = 1
      · rw [if_pos hu] at h
        cases hres : mapMExcept (fun p =>
            (parseDateRow (renameMonth
                (if Cell.text "Year" ∈ hdr then dropYearCols hdr else hdr))
              p.2).map ((p.1, ·)))
            (rest.map (fun p => (p.1, cleanRow hdr p.2))) with
        | error e => rw [hres] at h; exact absurd h (by simp)
        | ok rows2 =>
          rw [hres] at h
          injection h with h
          rw [← h, cleanCols]
          simp only
          rw [if_pos hM]
      · rw [if_neg hu] at h
        exact absurd h (by simp)
    · rw [if_neg hM] at h
      injection h with h
      rw [← h, cleanCols]
      simp only
      rw [if_neg hM]

theorem cleanSection_width (f : Frame) (w : Nat)
    (hw : ∀ p ∈ f.rows, p.2.length = w) (t : CleanFrame)
    (h : cleanSection f = .ok t) :
    ∀ p ∈ t.rows, p.2.length = t.columns.length := by
  cases hrows : f.rows with
  | nil =>
    rw [cleanSection, hrows] at h
    exact absurd h (by simp)
  | cons p0 rest =>
    obtain ⟨i0, hdr⟩ := p0
    have hhdr : hdr.length = w := hw (i0, hdr) (by rw [hrows]; simp)
    have hrw : ∀ q ∈ rest, (q : Nat × List Cell).2.length = hdr.length := by
      intro q hq
      rw [hhdr]
      exact hw q (by rw [hrows]; exact List.mem_cons_of_mem _ hq)
    obtain ⟨i0', hdr', rest', hrows', hcols⟩ := cleanSection_ok_shape f t h
    rw [hrows] at hrows'
    have hhdr' : hdr' = hdr := (Prod.ext_iff.mp
      ((List.cons.injEq _ _ _ _).mp hrows').1).2.symm
    rw [cleanSection, hrows] at h
    simp only at h
    by_cases hM : Cell.text DATE_COLUMN ∈
        (if Cell.text "Year" ∈ hdr then dropYearCols hdr else hdr)
    · rw [if_pos hM] at h
      by_cases hu : (renameMonth
          (if Cell.text "Year" ∈ hdr then dropYearCols hdr
            else hdr)).count (Cell.text "Date") = 1
      · rw [if_pos hu] at h
        cases hres : mapMExcept (fun p =>
            (parseDateRow (renameMonth
                (if Cell.text "Year" ∈ hdr then dropYearCols hdr else hdr))
              p.2).map ((p.1, ·)))
            (rest.map (fun p => (p.1, cleanRow hdr p.2))) with
        | error e => rw [hres] at h; exact absurd h (by simp)
        | ok rows2 =>
          rw [hres] at h
          injection h with h
          intro p hp
          have hprows : p ∈ sortIndex rows2 := by
            rw [← h] at hp
            exact hp
          rw [mem_sortIndex] at hprows
          rcases mapMExcept_ok_mem hres p hprows with ⟨a, ha, hfa⟩
          rw [List.mem_map] at ha
          rcases ha with ⟨q, hq, hqa⟩
          cases hpd : parseDateRow (renameMonth
              (if Cell.text "Year" ∈ hdr then dropYearCols hdr else hdr))
              a.2 with
          | error e =>
            rw [show ((parseDateRow (renameMonth
                (if Cell.text "Year" ∈ hdr then dropYearCols hdr else hdr))
                a.2).map ((a.1, ·))) = Except.error e by rw [hpd]; rfl] at hfa
            exact absurd hfa (by simp)
          | ok out =>
            have hfa' : Except.ok (ε := ScrapeError) (a.1, out) =
                Except.ok (p.1, p.2) := by
              rw [show (Except.ok (ε := ScrapeError) (a.1, out)) =
                ((parseDateRow (renameMonth
                  (if Cell.text "Year" ∈ hdr then dropYearCols hdr else hdr))
                  a.2).map ((a.1, ·))) by rw [hpd]; rfl, hfa]
            have hp2 : p.2 = out :=
              ((Prod.ext_iff.mp (Option.some.inj
                (congrArg Except.toOption hfa'))).2).symm
            have hlen := parseDateRow_length _ _ _ hpd
            have ha2 : a.2.length = (cleanCols hdr).length := by
              rw [← hqa]
              exact cleanRow_length hdr q.2 (hrw q hq)
            have hcl : (cleanCols hdr).length = (renameMonth
                (if Cell.text "Year" ∈ hdr then dropYearCols hdr
                  else hdr)).length := by
              rw [cleanCols_length, renameMonth, List.length_map]
            rw [hp2, hlen, ha2, hcols, hhdr', hcl]
            simp
      · rw [if_neg hu] at h
        exact absurd h (by simp)
    · rw [if_neg hM] at h
      injection h with h
      intro p hp
      have hprows : p ∈ sortIndex
          (rest.map (fun p => (p.1, cleanRow hdr p.2))) := by
        rw [← h] at hp
        exact hp
      rw [mem_sortIndex, List.mem_map] at hprows
      rcases hprows with ⟨q, hq, hqp⟩
      have hp2 : p.2 = cleanRow hdr q.2 := by
        rw [← hqp]
      rw [hp2, hcols, hhdr', cleanRow_length hdr q.2 (hrw q hq)]

theorem parseAllSections_ok_eq {g : Grid} {out : List (Cell × CleanFrame)}
    (h : parseAllSections g = .ok out) :
    out = (findSectionRanges g).filterMap (fun p =>
      match extractSectionData g p.2 with
      | .ok t => some (p.1, t)
      | .error _ => none) := by
  unfold parseAllSections at h
  rw [parseAll_foldl] at h
  simp only [List.nil_append] at h
  by_cases hempty : ((findSectionRanges g).filterMap (fun p =>
      match extractSectionData g p.2 with
      | .ok t => some (p.1, t)
      | .error _ => none)).isEmpty
  · rw [if_pos hempty] at h
    exact absurd h (by simp)
  · rw [if_neg hempty] at h
    exact (Except.ok.inj h).symm

/-! ### Claim C6: uniform record keys -/

/-- Claim C6: every record of a successfully extracted section has exactly
the same key list, namely the section's promoted column headers after the
`"Year"` drop and the Month-to-Date rename (`cleanCols` of the promoted
header row). -/
theorem claim_C6 (g : Grid) (out : List (Cell × CleanFrame))
    (hout : parseAllSections g = .ok out) :
    ∀ nt ∈ out,
      (∃ p ∈ findSectionRanges g, nt.1 = p.1 ∧
        ∃ i0 hdr rest,
          (selectData g (colSelection p.2)).rows = (i0, hdr) :: rest ∧
          nt.2.columns = cleanCols hdr) ∧
      ∀ rec ∈ toRecords nt.2, rec.map Prod.fst = nt.2.columns := by
  intro nt hnt
  rw [parseAllSections_ok_eq hout, List.mem_filterMap] at hnt
  rcases hnt with ⟨p, hp, hfp⟩
  cases hx : extractSectionData g p.2 with
  | error e => rw [hx] at hfp; exact absurd hfp (by simp)
  | ok t =>
    rw [hx] at hfp
    have h0 := Option.some.inj hfp
    have hnt1 : nt.1 = p.1 := ((Prod.ext_iff.mp h0).1).symm
    have ht2 : t = nt.2 := (Prod.ext_iff.mp h0).2
    have hclean : cleanSection (selectData g (colSelection p.2)) =
        .ok nt.2 := by
      rw [← ht2]
      exact hx
    rcases cleanSection_ok_shape _ _ hclean with ⟨i0, hdr, rest, hr, hc⟩
    refine ⟨⟨p, hp, hnt1, i0, hdr, rest, hr, hc⟩, ?_⟩
    intro rec hrec
    rw [toRecords, List.mem_map] at hrec
    rcases hrec with ⟨q, hq, hqr⟩
    rw [← hqr]
    have hwidth := cleanSection_width (selectData g (colSelection p.2))
      (colSelection p.2).length (selectData_width g _) nt.2 hclean
    exact List.map_fst_zip _ _ (le_of_eq (hwidth q hq).symm)

/-- The parse result for `gPartial`: the `"Good"` section alone. -/
def outPartial : List (Cell × CleanFrame) :=
  [(Cell.text "Good",
    ⟨[Cell.text "Date", Cell.text "Coal"],
     [(4, [Cell.date ⟨2023, 1, 1, 0, 0, 0⟩, Cell.num 5])]⟩)]

/-- Witness for `claim_C6` at `gPartial`: the one record of the `"Good"`
section has exactly the section's columns as its key list. -/
theorem claim_C6_witness :
    ([(Cell.text "Date", Cell.date ⟨2023, 1, 1, 0, 0, 0⟩),
      (Cell.text "Coal", Cell.num 5)] : List (Cell × Cell)).map Prod.fst =
      (⟨[Cell.text "Date", Cell.text "Coal"],
        [(4, [Cell.date ⟨2023, 1, 1, 0, 0, 0⟩, Cell.num 5])]⟩ :
        CleanFrame).columns :=
  (claim_C6 gPartial outPartial (by rfl)
    (Cell.text "Good",
      ⟨[Cell.text "Date", Cell.text "Coal"],
       [(4, [Cell.date ⟨2023, 1, 1, 0, 0, 0⟩, Cell.num 5])]⟩)
    (by decide)).2
    [(Cell.text "Date", Cell.date ⟨2023, 1, 1, 0, 0, 0⟩),
     (Cell.text "Coal", Cell.num 5)]
    (by decide)

/-! ### Claim C8: the Year column never reaches the output -/

theorem year_not_mem_renameMonth (cols : List Cell)
    (h : Cell.text "Year" ∉ cols) :
    Cell.text "Year" ∉ renameMonth cols := by
  intro hmem
  rw [renameMonth, List.mem_map] at hmem
  rcases hmem with ⟨c, hc, heq⟩
  by_cases hcm : c = Cell.text DATE_COLUMN
  · rw [if_pos hcm] at heq
    exact absurd heq (by decide)
  · rw [if_neg hcm] at heq
    exact h (heq ▸ hc)

theorem year_not_mem_cleanCols (hdr : List Cell) :
    Cell.text "Year" ∉ cleanCols hdr := by
  simp only [cleanCols]
  by_cases hY : Cell.text "Year" ∈ hdr
  · rw [if_pos hY]
    have h1 : Cell.text "Year" ∉ dropYearCols hdr := by
      intro hmem
      rw [dropYearCols, List.mem_filter] at hmem
      simp at hmem
    by_cases hM : Cell.text DATE_COLUMN ∈ dropYearCols hdr
    · rw [if_pos hM]
      exact year_not_mem_renameMonth _ h1
    · rw [if_neg hM]
      exact h1
  · rw [if_neg hY]
    by_cases hM : Cell.text DATE_COLUMN ∈ hdr
    · rw [if_pos hM]
      exact year_not_mem_renameMonth _ hY
    · rw [if_neg hM]
      exact hY

/-- Claim C8: a successfully extracted section's columns never contain
`"Year"` — the Year column is dropped entirely, so no output record ever
carries a `"Year"` key, even when `"Year"` was a promoted header of the
input grid. -/
theorem claim_C8 (g : Grid) (r : ColRange) (t : CleanFrame)
    (h : extractSectionData g r = .ok t) :
    Cell.text "Year" ∉ t.columns ∧
    ∀ rec ∈ toRecords t, ∀ kv ∈ rec, kv.1 ≠ Cell.text "Year" := by
  rcases cleanSection_ok_shape _ _ h with ⟨i0, hdr, rest, hr, hc⟩
  have hy : Cell.text "Year" ∉ t.columns := by
    rw [hc]
    exact year_not_mem_cleanCols hdr
  refine ⟨hy, ?_⟩
  intro rec hrec kv hkv
  rw [toRecords, List.mem_map] at hrec
  rcases hrec with ⟨q, hq, hqr⟩
  rw [← hqr] at hkv
  obtain ⟨k, v⟩ := kv
  have hk : k ∈ t.columns := (List.of_mem_zip hkv).1
  intro hke
  rw [show ((k, v) : Cell × Cell).1 = k from rfl] at hke
  rw [hke] at hk
  exact hy hk

/-- A grid whose section carries a `"Year"` sub-header column. -/
def gYear : Grid := ⟨3, [[], [],
  [Cell.empty, Cell.text "Imports", Cell.empty],
  [Cell.text "Month", Cell.text "Coal", Cell.text "Year"],
  [Cell.text "2023-01-01 00:00:00", Cell.num 5, Cell.num 2023]]⟩

/-- Witness for `claim_C8` at `gYear`, whose promoted headers include
`"Year"`. -/
theorem claim_C8_witness :
    Cell.text "Year" ∉
      (⟨[Cell.text "Date", Cell.text "Coal"],
        [(4, [Cell.date ⟨2023, 1, 1, 0, 0, 0⟩, Cell.num 5])]⟩ :
        CleanFrame).columns ∧
    ∀ rec ∈ toRecords (⟨[Cell.text "Date", Cell.text "Coal"],
        [(4, [Cell.date ⟨2023, 1, 1, 0, 0, 0⟩, Cell.num 5])]⟩ :
        CleanFrame),
      ∀ kv ∈ rec, kv.1 ≠ Cell.text "Year" :=
  claim_C8 gYear ⟨1, 3⟩ _ (by rfl)

/-! ### Claim C9: row order preservation -/

theorem selectData_indices (g : Grid) (cols : List Nat) :
    (selectData g cols).rows.map Prod.fst =
      List.range' DATA_START_ROW (g.rows.length - DATA_START_ROW) := by
  rw [selectData]
  simp only [List.map_map]
  rw [show (Prod.fst ∘ fun p : Nat × List Cell =>
      (DATA_START_ROW + p.1, cols.map (fun c => p.2.getD c Cell.empty))) =
    ((fun i => DATA_START_ROW + i) ∘ Prod.fst) from rfl]
  rw [← List.map_map, List.enum_map_fst, ← List.range'_eq_map_range]
  rw [List.length_drop]

theorem mapMExcept_fst
    (f : Nat × List Cell → Except ScrapeError (Nat × List Cell))
    (hf : ∀ p b, f p = .ok b → b.1 = p.1)
    (l l2 : List (Nat × List Cell)) (h : mapMExcept f l = .ok l2) :
    l2.map Prod.fst = l.map Prod.fst := by
  induction l generalizing l2 with
  | nil =>
    rw [mapMExcept] at h
    injection h with h
    subst h
    rfl
  | cons a as ih =>
    rw [mapMExcept] at h
    cases hfa : f a with
    | error e => rw [hfa] at h; exact absurd h (by simp)
    | ok b =>
      rw [hfa] at h
      cases hrest : mapMExcept f as with
      | error e => rw [hrest] at h; exact absurd h (by simp)
      | ok bs =>
        rw [hrest] at h
        injection h with h
        subst h
        simp only [List.map_cons, ih bs hrest, hf a b hfa]

theorem sortIndex_sorted (l : List (Nat × List Cell))
    (h : List.Chain' (fun a b => a.1 ≤ b.1) l) : sortIndex l = l := by
  induction l with
  | nil => rfl
  | cons p rest ih =>
    rw [sortIndex, ih h.tail]
    cases rest with
    | nil => rfl
    | cons q t =>
      rw [insertByIdx, if_pos ((List.chain'_cons.mp h).1)]

theorem chain_le_of_map_range' (l : List (Nat × List Cell)) (s n : Nat)
    (h : l.map Prod.fst = List.range' s n) :
    List.Chain' (fun a b => a.1 ≤ b.1) l := by
  have hc : List.Chain' (· ≤ ·) (l.map Prod.fst) := by
    rw [h]
    exact ((List.pairwise_lt_range' s n).chain').imp (fun _ _ h => le_of_lt h)
  rw [List.chain'_map] at hc
  exact hc

/-- Claim C9: a successfully extracted section's records appear in exactly
the original grid order — the row labels of the output are the consecutive
original row indices from `DATA_START_ROW + 1` on, and the final
sort-by-row-label is a no-op. -/
theorem claim_C9 (g : Grid) (r : ColRange) (t : CleanFrame)
    (h : extractSectionData g r = .ok t) :
    t.rows.map Prod.fst =
      List.range' (DATA_START_ROW + 1)
        (g.rows.length - (DATA_START_ROW + 1)) ∧
    sortIndex t.rows = t.rows := by
  have hidx := selectData_indices g (colSelection r)
  cases hrows : (selectData g (colSelection r)).rows with
  | nil =>
    unfold extractSectionData at h
    rw [cleanSection, hrows] at h
    exact absurd h (by simp)
  | cons p0 rest =>
    obtain ⟨i0, hdr⟩ := p0
    rw [hrows] at hidx
    simp only [List.map_cons] at hidx
    cases hm : g.rows.length - DATA_START_ROW with
    | zero =>
      rw [hm] at hidx
      exact absurd hidx (by simp)
    | succ k =>
      rw [hm, List.range'_succ] at hidx
      have htl : rest.map Prod.fst = List.range' (DATA_START_ROW + 1) k :=
        ((List.cons.injEq _ _ _ _).mp hidx).2
      have hk : k = g.rows.length - (DATA_START_ROW + 1) := by omega
      unfold extractSectionData at h
      rw [cleanSection, hrows] at h
      simp only at h
      by_cases hM : Cell.text DATE_COLUMN ∈
          (if Cell.text "Year" ∈ hdr then dropYearCols hdr else hdr)
      · rw [if_pos hM] at h
        by_cases hu : (renameMonth
            (if Cell.text "Year" ∈ hdr then dropYearCols hdr
              else hdr)).count (Cell.text "Date") = 1
        · rw [if_pos hu] at h
          cases hres : mapMExcept (fun p =>
              (parseDateRow (renameMonth
                  (if Cell.text "Year" ∈ hdr then dropYearCols hdr else hdr))
                p.2).map ((p.1, ·)))
              (rest.map (fun p => (p.1, cleanRow hdr p.2))) with
          | error e => rw [hres] at h; exact absurd h (by simp)
          | ok rows2 =>
            rw [hres] at h
            injection h with h
            have hfF : ∀ (p b : Nat × List Cell),
                ((parseDateRow (renameMonth
                    (if Cell.text "Year" ∈ hdr then dropYearCols hdr else hdr))
                  p.2).map ((p.1, ·))) = .ok b → b.1 = p.1 := by
              intro p b hpb
              cases hpd : parseDateRow (renameMonth
                  (if Cell.text "Year" ∈ hdr then dropYearCols hdr else hdr))
                  p.2 with
              | error e =>
                rw [show ((parseDateRow (renameMonth
                    (if Cell.text "Year" ∈ hdr then dropYearCols hdr
                      else hdr)) p.2).map ((p.1, ·))) = Except.error e
                  by rw [hpd]; rfl] at hpb
                exact absurd hpb (by simp)
              | ok out =>
                rw [show ((parseDateRow (renameMonth
                    (if Cell.text "Year" ∈ hdr then dropYearCols hdr
                      else hdr)) p.2).map ((p.1, ·))) =
                  Except.ok (p.1, out) by rw [hpd]; rfl] at hpb
                rw [← Except.ok.inj hpb]
            have hfst1 : (rest.map
                (fun p => (p.1, cleanRow hdr p.2))).map Prod.fst =
                rest.map Prod.fst := by
              rw [List.map_map]
              rfl
            have hfst2 : rows2.map Prod.fst = rest.map Prod.fst := by
              rw [mapMExcept_fst _ hfF _ _ hres, hfst1]
            have hsort : sortIndex rows2 = rows2 :=
              sortIndex_sorted _ (chain_le_of_map_range' rows2 _ k
                (by rw [hfst2, htl]))
            constructor
            · rw [← h]
              simp only
              rw [hsort, hfst2, htl, hk]
            · rw [← h]
              simp only
              rw [hsort, hsort]
        · rw [if_neg hu] at h
          exact absurd h (by simp)
      · rw [if_neg hM] at h
        injection h with h
        have hfst1 : (rest.map
            (fun p => (p.1, cleanRow hdr p.2))).map Prod.fst =
            rest.map Prod.fst := by
          rw [List.map_map]
          rfl
        have hsort : sortIndex (rest.map
            (fun p => (p.1, cleanRow hdr p.2))) =
            rest.map (fun p => (p.1, cleanRow hdr p.2)) :=
          sortIndex_sorted _ (chain_le_of_map_range' _ _ k
            (by rw [hfst1, htl]))
        constructor
        · rw [← h]
          simp only
          rw [hsort, hfst1, htl, hk]
        · rw [← h]
          simp only
          rw [hsort, hsort]

/-- Witness for `claim_C9` at `gYear`: the single record keeps the
original row label 4, and sorting is a no-op. -/
theorem claim_C9_witness :
    (⟨[Cell.text "Date", Cell.text "Coal"],
      [(4, [Cell.date ⟨2023, 1, 1, 0, 0, 0⟩, Cell.num 5])]⟩ :
      CleanFrame).rows.map Prod.fst =
      List.range' (DATA_START_ROW + 1)
        (gYear.rows.length - (DATA_START_ROW + 1)) ∧
    sortIndex (⟨[Cell.text "Date", Cell.text "Coal"],
      [(4, [Cell.date ⟨2023, 1, 1, 0, 0, 0⟩, Cell.num 5])]⟩ :
      CleanFrame).rows =
      (⟨[Cell.text "Date", Cell.text "Coal"],
        [(4, [Cell.date ⟨2023, 1, 1, 0, 0, 0⟩, Cell.num 5])]⟩ :
        CleanFrame).rows :=
  claim_C9 gYear ⟨1, 3⟩ _ (by rfl)

end PortTracker
